import Mathlib

/-!
Cartographer, the Runnable reconciler: a shallow embedding of
`pkg/controller/runnable/reconciler.go`.

`Reconciler.Reconcile` is straight-line code over four collaborators that are Go
interface values (`Repo`, `Realizer`, `DynamicTracker`, the `ConditionManager` built by
`ConditionManagerBuilder`).  Each collaborator method is embedded as a function on an
explicit world state `W` (everything mutable outside the locals of `Reconcile`), returning
the Go return values together with the next world.  `Reconcile` threads the world through
the calls in source order and records every collaborator call, with its arguments and
return values, in a call log.  Logging calls (`logger.Info`, `logger.Error`) have no effect
on control flow or on the collaborators and are left out, and so is the context argument.

The admission hook of ClusterRunTemplate (`ValidateCreate`, `ValidateUpdate`,
`ValidateDelete`) is exercised by `pkg/apis/v1alpha1/cluster_run_template_test.go`; its
implementation is modelled from the specification and from the error texts of the tests.
The generated copy routines of `pkg/apis/v1alpha1/zz_generated.deepcopy.go` are embedded
as functions from the receiver to the value written to `out`: a pointer is an `Option`, a
slice is an `Option` of a list and a map is an `Option` of an association list with
distinct keys, `none` being nil.
-/

namespace Cartographer

/-! ## Data model -/

/-- The `metav1.Condition` fields the reconciler passes around (`Type` is spelled `Type_`). -/
structure Condition where
  Type_ : String
  Status : String
  Reason : String
  Message : String
deriving DecidableEq, Repr

/-- Go `error` values, by dynamic type.  The first six constructors are the error types of
the realizer package that the type switch of `Reconcile` names; `unhandledError` is the
wrapper type of the controller package; `wrapError` is the value built by `fmt.Errorf` with
a `%w` verb; `errorString` stands for an error of any other dynamic type. -/
inductive GoError where
  | GetRunTemplateError (detail : String)
  | ResolveSelectorError (detail : String)
  | StampError (detail : String)
  | ApplyStampedObjectError (detail : String)
  | ListCreatedObjectsError (detail : String)
  | RetrieveOutputError (detail : String)
  | unhandledError (err : GoError)
  | wrapError (format : String) (err : GoError)
  | errorString (msg : String)
deriving DecidableEq, Repr

/-- Modelled from the spec: `controller.NewUnhandledError` (package `pkg/controller`, not
part of the sources at hand) marks an error as escalated, that is, to be returned from the
pass to the framework. -/
def NewUnhandledError (err : GoError) : GoError :=
  GoError.unhandledError err

/-- Modelled from the spec: `controller.IsUnhandledError` (package `pkg/controller`, not
part of the sources at hand) recognises exactly the errors marked by `NewUnhandledError`. -/
def IsUnhandledError : GoError → Bool
  | GoError.unhandledError _ => true
  | _ => false

/-- The value of `fmt.Errorf(format, err)` where `format` ends in the `%w` verb. -/
def Errorf (format : String) (err : GoError) : GoError :=
  GoError.wrapError format err

/-- The function `errors.Unwrap`: the error wrapped through `%w`, if any. -/
def Unwrap : GoError → Option GoError
  | GoError.wrapError _ err => some err
  | _ => none

/-- The output map (`templates.Outputs`, `map[string]apiextensionsv1.JSON`) as an
association list from output name to its JSON text. -/
abbrev Outputs := List (String × String)

/-- The stamped object, `*unstructured.Unstructured`; `Reconcile` only hands it on. -/
structure Unstructured where
  Object : List (String × String)
deriving DecidableEq, Repr

/-- Modelled from the spec: the owner's spec (top-level parameters and the template
reference); `Reconcile` never reads or writes it. -/
structure RunnableSpec where
  RunTemplateRef : String
  Inputs : List (String × String)
deriving DecidableEq, Repr

/-- Modelled from the spec: the owner's status block, an ordered condition list, an
observed-generation marker and the last-computed output set. -/
structure RunnableStatus where
  ObservedGeneration : Int
  Conditions : List Condition
  Outputs : Outputs
deriving DecidableEq, Repr

/-- Modelled from the spec: the owning resource `v1alpha1.Runnable`, with the fields of the
embedded object metadata that matter here (`Name`, `Namespace`, `Generation`). -/
structure Runnable where
  Name : String
  Namespace : String
  Generation : Int
  Spec : RunnableSpec
  Status : RunnableStatus
deriving DecidableEq, Repr

/-- Modelled from the spec: the constant `v1alpha1.RunnableReady`, the designated summary
condition type. -/
def RunnableReady : String := "Ready"

/-- The request `ctrl.Request` (a namespaced name). -/
structure Request where
  Namespace : String
  Name : String
deriving DecidableEq, Repr

/-- The result `ctrl.Result`. -/
structure Result where
  Requeue : Bool
  RequeueAfter : Int
deriving DecidableEq, Repr

/-- The zero value `ctrl.Result{}`. -/
def Result.zero : Result := ⟨false, 0⟩

/-- The handler `handler.EnqueueRequestForOwner`, identified by its owner type. -/
structure EnqueueRequestForOwner where
  OwnerType : String
deriving DecidableEq, Repr

/-! ## Collaborators -/

/-- The three values returned by `Realizer.Realize`. -/
structure Realized where
  stampedObject : Option Unstructured
  outputs : Outputs
  err : Option GoError
deriving DecidableEq, Repr

/-- The methods of `repository.Repository` that `Reconcile` calls. -/
structure Repository (W : Type) where
  GetRunnable : String → String → W → (Option Runnable × Option GoError) × W
  StatusUpdate : Runnable → W → Option GoError × W

/-- The interface `realizer.Realizer`. -/
structure Realizer (W : Type) where
  Realize : Runnable → W → Realized × W

/-- The method of `tracker.DynamicTracker` that `Reconcile` calls. -/
structure DynamicTracker (W : Type) where
  Watch : Unstructured → EnqueueRequestForOwner → W → Option GoError × W

/-- The methods of `conditions.ConditionManager` that `Reconcile` calls. -/
structure ConditionManager (W : Type) where
  AddPositive : Condition → W → W
  Finalize : W → (List Condition × Bool) × W

/-- The condition constructors of package `runnable` (declared next to the reconciler, not
part of the sources at hand), taken as parameters. -/
structure ConditionFns where
  RunTemplateReadyCondition : Condition
  RunTemplateMissingCondition : GoError → Condition
  TemplateStampFailureCondition : GoError → Condition
  StampedObjectRejectedByAPIServerCondition : GoError → Condition
  FailedToListCreatedObjectsCondition : GoError → Condition
  OutputPathNotSatisfiedCondition : GoError → Condition
  UnknownErrorCondition : GoError → Condition

/-- The struct `Reconciler`.  The private field `conditionManager` is a local of the pass
in this embedding. -/
structure Reconciler (W : Type) where
  Repo : Repository W
  Realizer : Realizer W
  DynamicTracker : DynamicTracker W
  ConditionManagerBuilder : String → List Condition → W → ConditionManager W × W

/-! ## The call log -/

/-- One collaborator call made by `Reconcile`: its arguments, then its return values. -/
inductive Call where
  | GetRunnable (name ns : String) (runnable : Option Runnable) (err : Option GoError)
  | ConditionManagerBuilder (conditionType : String) (previous : List Condition)
  | Realize (runnable : Runnable) (stampedObject : Option Unstructured) (outputs : Outputs)
      (err : Option GoError)
  | AddPositive (condition : Condition)
  | Watch (stampedObject : Unstructured) (handler : EnqueueRequestForOwner)
      (err : Option GoError)
  | Finalize (conditions : List Condition) (changed : Bool)
  | StatusUpdate (runnable : Runnable) (err : Option GoError)
deriving DecidableEq, Repr

/-- Recognises a call of `Repo.GetRunnable`. -/
def Call.isGetRunnable : Call → Bool
  | Call.GetRunnable _ _ _ _ => true
  | _ => false

/-- Recognises a call of `ConditionManagerBuilder`. -/
def Call.isConditionManagerBuilder : Call → Bool
  | Call.ConditionManagerBuilder _ _ => true
  | _ => false

/-- Recognises a call of `Realizer.Realize`. -/
def Call.isRealize : Call → Bool
  | Call.Realize _ _ _ _ => true
  | _ => false

/-- Recognises a call of `ConditionManager.AddPositive`. -/
def Call.isAddPositive : Call → Bool
  | Call.AddPositive _ => true
  | _ => false

/-- Recognises a call of `DynamicTracker.Watch`. -/
def Call.isWatch : Call → Bool
  | Call.Watch _ _ _ => true
  | _ => false

/-- Recognises a call of `ConditionManager.Finalize`. -/
def Call.isFinalize : Call → Bool
  | Call.Finalize _ _ => true
  | _ => false

/-- Recognises a call of `Repo.StatusUpdate`. -/
def Call.isStatusUpdate : Call → Bool
  | Call.StatusUpdate _ _ => true
  | _ => false

/-- What one pass leaves behind: the two return values of `Reconcile`, the collaborator
calls in the order they were made, the owner object as the pass leaves it (`none` when no
owner was fetched) and the world after the pass. -/
structure Pass (W : Type) where
  Result : Result
  Err : Option GoError
  Calls : List Call
  Owner : Option Runnable
  World : W

/-! ## Reconcile -/

/-- The assignment `runnable.Status.Conditions = conditions`. -/
def Runnable.setConditions (runnable : Runnable) (conditions : List Condition) : Runnable :=
  { runnable with Status := { runnable.Status with Conditions := conditions } }

/-- The assignment `runnable.Status.Outputs = outputs`. -/
def Runnable.setOutputs (runnable : Runnable) (outputs : Outputs) : Runnable :=
  { runnable with Status := { runnable.Status with Outputs := outputs } }

/-- Lines 61-84 of `reconciler.go`: the type switch on the realizer's error.  Returns the
condition handed to `AddPositive` and the value of `err` after the switch. -/
def classify (fns : ConditionFns) : Option GoError → Condition × Option GoError
  | some (GoError.GetRunTemplateError d) =>
    (fns.RunTemplateMissingCondition (GoError.GetRunTemplateError d),
      some (NewUnhandledError (GoError.GetRunTemplateError d)))
  | some (GoError.ResolveSelectorError d) =>
    (fns.TemplateStampFailureCondition (GoError.ResolveSelectorError d),
      some (GoError.ResolveSelectorError d))
  | some (GoError.StampError d) =>
    (fns.TemplateStampFailureCondition (GoError.StampError d), some (GoError.StampError d))
  | some (GoError.ApplyStampedObjectError d) =>
    (fns.StampedObjectRejectedByAPIServerCondition (GoError.ApplyStampedObjectError d),
      some (NewUnhandledError (GoError.ApplyStampedObjectError d)))
  | some (GoError.ListCreatedObjectsError d) =>
    (fns.FailedToListCreatedObjectsCondition (GoError.ListCreatedObjectsError d),
      some (NewUnhandledError (GoError.ListCreatedObjectsError d)))
  | some (GoError.RetrieveOutputError d) =>
    (fns.OutputPathNotSatisfiedCondition (GoError.RetrieveOutputError d),
      some (GoError.RetrieveOutputError d))
  | some err => (fns.UnknownErrorCondition err, some (NewUnhandledError err))
  | none => (fns.RunTemplateReadyCondition, none)

/-- Lines 106-113 of `reconciler.go`: the error returned once the status write is behind. -/
def returnedError : Option GoError → Option GoError
  | some err => if IsUnhandledError err then some err else none
  | none => none

/-- The method `Reconciler.Reconcile` (lines 43-114 of `reconciler.go`). -/
def Reconcile {W : Type} (r : Reconciler W) (fns : ConditionFns) (request : Request)
    (w : W) : Pass W :=
  -- line 48
  let fetched := r.Repo.GetRunnable request.Name request.Namespace w
  let calls := [Call.GetRunnable request.Name request.Namespace fetched.1.1 fetched.1.2]
  match fetched.1.2 with
  | some err =>
    -- lines 49-51
    ⟨Result.zero, some (Errorf "get runnable: %w" err), calls, fetched.1.1, fetched.2⟩
  | none =>
    match fetched.1.1 with
    | none =>
      -- lines 53-56
      ⟨Result.zero, none, calls, none, fetched.2⟩
    | some runnable =>
      -- line 58
      let built := r.ConditionManagerBuilder RunnableReady runnable.Status.Conditions fetched.2
      let conditionManager := built.1
      let calls :=
        calls ++ [Call.ConditionManagerBuilder RunnableReady runnable.Status.Conditions]
      -- line 60
      let realized := r.Realizer.Realize runnable built.2
      let stampedObject := realized.1.stampedObject
      let outputs := realized.1.outputs
      let calls := calls ++ [Call.Realize runnable stampedObject outputs realized.1.err]
      -- lines 61-84
      let classified := classify fns realized.1.err
      let added := conditionManager.AddPositive classified.1 realized.2
      let calls := calls ++ [Call.AddPositive classified.1]
      let err := classified.2
      -- lines 86-93
      let tracked : Option GoError × List Call × W :=
        match stampedObject with
        | none => (err, calls, added)
        | some stamped =>
          let watched := r.DynamicTracker.Watch stamped ⟨"Runnable"⟩ added
          let calls := calls ++ [Call.Watch stamped ⟨"Runnable"⟩ watched.1]
          match watched.1 with
          | some trackingError => (some (NewUnhandledError trackingError), calls, watched.2)
          | none => (err, calls, watched.2)
      let err := tracked.1
      -- lines 95-96
      let finalized := conditionManager.Finalize tracked.2.2
      let changed := finalized.1.2
      let runnable := runnable.setConditions finalized.1.1
      let calls := tracked.2.1 ++ [Call.Finalize finalized.1.1 changed]
      -- line 98
      if changed || (runnable.Status.ObservedGeneration != runnable.Generation) then
        -- lines 99-100
        let runnable := runnable.setOutputs outputs
        let updated := r.Repo.StatusUpdate runnable finalized.2
        let calls := calls ++ [Call.StatusUpdate runnable updated.1]
        match updated.1 with
        | some statusUpdateError =>
          -- lines 101-103
          ⟨Result.zero, some (Errorf "update runnable status: %w" statusUpdateError), calls,
            some runnable, updated.2⟩
        | none =>
          -- lines 106-113
          ⟨Result.zero, returnedError err, calls, some runnable, updated.2⟩
      else
        -- lines 106-113
        ⟨Result.zero, returnedError err, calls, some runnable, finalized.2⟩

/-! ## Auxiliary definitions for the statements -/

/-- How lines 86-93 of `reconciler.go` extend the call log (`watchCalls`) and set the error
carried on (`err1`), given the stamped object and the error left by the type switch. -/
def WatchOutcome (stampedObject : Option Unstructured) (err : Option GoError)
    (watchCalls : List Call) (err1 : Option GoError) : Prop :=
  match stampedObject with
  | none => watchCalls = [] ∧ err1 = err
  | some stamped =>
    (watchCalls = [Call.Watch stamped ⟨"Runnable"⟩ none] ∧ err1 = err) ∨
    ∃ trackingError, watchCalls = [Call.Watch stamped ⟨"Runnable"⟩ (some trackingError)] ∧
      err1 = some (NewUnhandledError trackingError)

/-- How lines 98-113 of `reconciler.go` extend the call log (`updateCalls`), what they return
(`returned`) and how they leave the owner, given the finalized conditions, the `changed`
flag, the realizer outputs and the error carried on from the watch step. -/
def UpdateOutcome (runnable : Runnable) (conditions : List Condition) (changed : Bool)
    (outputs : Outputs) (err1 : Option GoError) (updateCalls : List Call)
    (returned : Option GoError) (owner : Option Runnable) : Prop :=
  if changed = true ∨ runnable.Status.ObservedGeneration ≠ runnable.Generation then
    owner = some ((runnable.setConditions conditions).setOutputs outputs) ∧
    ((updateCalls
          = [Call.StatusUpdate ((runnable.setConditions conditions).setOutputs outputs) none] ∧
        returned = returnedError err1) ∨
      ∃ statusUpdateError,
        updateCalls = [Call.StatusUpdate ((runnable.setConditions conditions).setOutputs outputs)
          (some statusUpdateError)] ∧
        returned = some (Errorf "update runnable status: %w" statusUpdateError))
  else
    owner = some (runnable.setConditions conditions) ∧ updateCalls = [] ∧
      returned = returnedError err1

/-- What happened in a pass in which the owner exists: the owner fetched, the values
returned by `Realize` and by `Finalize`, the calls logged by the watch step and by the
status-write step, and the error carried on from the watch step. -/
structure OwnerRun where
  runnable : Runnable
  stampedObject : Option Unstructured
  outputs : Outputs
  err : Option GoError
  conditions : List Condition
  changed : Bool
  watchCalls : List Call
  updateCalls : List Call
  err1 : Option GoError

/-- The pass `p` for `request` is the run `run`: its call log is the fetch, the builder,
`Realize`, `AddPositive`, the watch step, `Finalize` and the status-write step, in this
order, and its error and owner are those of the status-write step. -/
def OwnerPass {W : Type} (fns : ConditionFns) (request : Request) (run : OwnerRun)
    (p : Pass W) : Prop :=
  p.Calls =
      [Call.GetRunnable request.Name request.Namespace (some run.runnable) none,
       Call.ConditionManagerBuilder RunnableReady run.runnable.Status.Conditions,
       Call.Realize run.runnable run.stampedObject run.outputs run.err,
       Call.AddPositive (classify fns run.err).1] ++ run.watchCalls
        ++ [Call.Finalize run.conditions run.changed] ++ run.updateCalls
    ∧ WatchOutcome run.stampedObject (classify fns run.err).2 run.watchCalls run.err1
    ∧ UpdateOutcome run.runnable run.conditions run.changed run.outputs run.err1
        run.updateCalls p.Err p.Owner

/-- A reconciler over the trivial world whose collaborators answer with fixed values. -/
def scripted (owner : Option Runnable) (getErr : Option GoError) (realized : Realized)
    (watchErr : Option GoError) (finalized : List Condition × Bool)
    (updateErr : Option GoError) : Reconciler Unit where
  Repo := ⟨fun _ _ w => ((owner, getErr), w), fun _ w => (updateErr, w)⟩
  Realizer := ⟨fun _ w => (realized, w)⟩
  DynamicTracker := ⟨fun _ _ w => (watchErr, w)⟩
  ConditionManagerBuilder := fun _ _ w => (⟨fun _ w => w, fun w => (finalized, w)⟩, w)

/-- Sample condition constructors: each returns a condition with its own reason. -/
def sampleFns : ConditionFns where
  RunTemplateReadyCondition := ⟨"RunTemplateReady", "True", "Ready", ""⟩
  RunTemplateMissingCondition := fun _ =>
    ⟨"RunTemplateReady", "False", "RunTemplateNotFound", ""⟩
  TemplateStampFailureCondition := fun _ =>
    ⟨"RunTemplateReady", "False", "TemplateStampFailure", ""⟩
  StampedObjectRejectedByAPIServerCondition := fun _ =>
    ⟨"RunTemplateReady", "False", "StampedObjectRejectedByAPIServer", ""⟩
  FailedToListCreatedObjectsCondition := fun _ =>
    ⟨"RunTemplateReady", "False", "FailedToListCreatedObjects", ""⟩
  OutputPathNotSatisfiedCondition := fun _ =>
    ⟨"RunTemplateReady", "False", "OutputPathNotSatisfied", ""⟩
  UnknownErrorCondition := fun _ => ⟨"RunTemplateReady", "False", "UnknownError", ""⟩

/-- A sample owner whose observed generation equals its generation and whose stored
outputs are empty. -/
def sampleRunnable : Runnable :=
  ⟨"my-runnable", "my-namespace", 1, ⟨"my-run-template", []⟩, ⟨1, [], []⟩⟩

/-- A sample owner that is ready and up to date: its conditions are those of a successful
pass, its observed generation equals its generation, and it stores one output. -/
def sampleReadyRunnable : Runnable :=
  ⟨"my-runnable", "my-namespace", 1, ⟨"my-run-template", []⟩,
    ⟨1, [⟨"RunTemplateReady", "True", "Ready", ""⟩, ⟨"Ready", "True", "Ready", ""⟩],
      [("image", "v1")]⟩⟩

/-- A sample owner whose observed generation lags behind its generation. -/
def sampleStaleRunnable : Runnable :=
  ⟨"my-runnable", "my-namespace", 2, ⟨"my-run-template", []⟩, ⟨1, [], []⟩⟩

/-- The request for the sample owners. -/
def sampleRequest : Request := ⟨"my-namespace", "my-runnable"⟩

/-- A sample stamped object. -/
def sampleStamped : Unstructured := ⟨[("kind", "TaskRun")]⟩

/-- An error of a reported-only kind: a `ResolveSelectorError`, a `StampError` or a
`RetrieveOutputError` (the cases of the type switch that leave `err` unmarked). -/
def ReportedOnly (err : GoError) : Prop :=
  (∃ d, err = GoError.ResolveSelectorError d) ∨ (∃ d, err = GoError.StampError d)
    ∨ (∃ d, err = GoError.RetrieveOutputError d)

/-! ## The ClusterRunTemplate admission hook -/

/-- A JSON value: the structural representation (map, list, scalar) of a template body. -/
inductive JSON where
  | null
  | bool (b : Bool)
  | number (n : Int)
  | string (s : String)
  | array (items : List JSON)
  | object (fields : List (String × JSON))

/-- The member `key` of a JSON object, if the value is an object that has one. -/
def JSON.field (key : String) : JSON → Option JSON
  | JSON.object fields => fields.lookup key
  | _ => none

/-- The struct `RunTemplateSpec`: the template body (a `runtime.RawExtension`, kept as the
JSON value it holds) and the named output paths. -/
structure RunTemplateSpec where
  Template : JSON
  Outputs : List (String × String)

/-- Modelled from the spec: the resource `v1alpha1.ClusterRunTemplate` (its declaration is
not part of the sources at hand), with its name, namespace and spec. -/
structure ClusterRunTemplate where
  Name : String
  Namespace : String
  Spec : RunTemplateSpec

/-- Modelled from the spec: whether a template body statically declares a target namespace
(the check itself is not part of the sources at hand): its `metadata.namespace` is present
and is neither `null` nor the empty string. -/
def setsNamespace (body : JSON) : Bool :=
  match (body.field "metadata").bind (JSON.field "namespace") with
  | none => false
  | some JSON.null => false
  | some (JSON.string ns) => ns != ""
  | some _ => true

/-- Modelled from the spec: whether a template body contains a non-empty `spec` section
(the check itself is not part of the sources at hand): its `spec` member is present and is
neither `null` nor the empty object. -/
def hasSpec (body : JSON) : Bool :=
  match body.field "spec" with
  | none => false
  | some JSON.null => false
  | some (JSON.object []) => false
  | some _ => true

/-- Modelled from the spec: the validation that the admission hook runs on create and on
update (`cluster_run_template.go` is not part of the sources at hand; the spec gives the two
invariants, the webhook tests give the error texts).  The two invariants are checked in the
order in which the spec names them for the hook: no static namespace, then a non-empty
spec.  `format` is the text printed for the templated object in the second error. -/
def RunTemplateSpec.validate (format : JSON → String) (spec : RunTemplateSpec) :
    Option GoError :=
  if setsNamespace spec.Template then
    some (GoError.errorString
      "invalid template: template should not set metadata.namespace on the child object")
  else if hasSpec spec.Template then
    none
  else
    some (GoError.errorString
      ("invalid template: object must have a spec; templated object: "
        ++ format spec.Template))

/-- Modelled from the spec: the method `ClusterRunTemplate.ValidateCreate` (not part of
the sources at hand): the hook on create enforces the two invariants. -/
def ClusterRunTemplate.ValidateCreate (format : JSON → String) (t : ClusterRunTemplate) :
    Option GoError :=
  t.Spec.validate format

/-- Modelled from the spec: the method `ClusterRunTemplate.ValidateUpdate` (not part of
the sources at hand): the hook on update enforces the two invariants on the new object;
`old` is the object being replaced, `none` for a nil argument. -/
def ClusterRunTemplate.ValidateUpdate (format : JSON → String) (t : ClusterRunTemplate)
    (_old : Option ClusterRunTemplate) : Option GoError :=
  t.Spec.validate format

/-- Modelled from the spec: the method `ClusterRunTemplate.ValidateDelete` (not part of
the sources at hand): on delete the hook always succeeds, without validation; the receiver
is `none` for a nil template. -/
def ClusterRunTemplate.ValidateDelete (_t : Option ClusterRunTemplate) : Option GoError :=
  none

/-- The template of the webhook tests, around a given body. -/
def sampleTemplate (body : JSON) : ClusterRunTemplate :=
  ⟨"some-template", "default", ⟨body, []⟩⟩

/-- The well-formed body of the webhook tests. -/
def sampleWellFormedBody : JSON :=
  JSON.object [("kind", JSON.string "some-kind"), ("apiVersion", JSON.string "v1"),
    ("metadata", JSON.object [("name", JSON.string "some-name")]),
    ("spec", JSON.object [("someKey", JSON.string "some-val")])]

/-- The body of the webhook tests that sets the namespace of the child object. -/
def sampleNamespacedBody : JSON :=
  JSON.object [("kind", JSON.string "some-kind"), ("apiVersion", JSON.string "v1"),
    ("metadata", JSON.object [("name", JSON.string "some-name"),
      ("namespace", JSON.string "some-namespace")]),
    ("spec", JSON.object [("someKey", JSON.string "some-val")])]

/-- The body of the webhook tests that has no spec: a ConfigMap with only data. -/
def sampleConfigMapBody : JSON :=
  JSON.object [("kind", JSON.string "ConfigMap"), ("apiVersion", JSON.string "v1"),
    ("metadata", JSON.object [("name", JSON.string "another-name")]),
    ("data", JSON.object [("greeting", JSON.string "hi"),
      ("salutation", JSON.string "bye")])]

/-- A printer for templated objects that prints the same text for every object. -/
def sampleFormat : JSON → String := fun _ => "<object>"

/-! ## Generated deep copies -/

/-- The slice `make([]T, n)`: `n` zero values. -/
def makeSlice (α : Type) [Inhabited α] (n : Nat) : List α :=
  List.replicate n default

/-- The builtin `copy(dst, src)`: the first `min (len dst) (len src)` elements of `dst`
are overwritten with those of `src`. -/
def copySlice {α : Type} (dst src : List α) : List α :=
  src.take (min dst.length src.length) ++ dst.drop (min dst.length src.length)

/-- The loop `for i := range *in { (*in)[i].DeepCopyInto(&(*out)[i]) }`. -/
def deepCopyEach {α : Type} (deepCopyInto : α → α) (in_ out : List α) : List α :=
  (List.range in_.length).foldl
    (fun out i =>
      match in_[i]? with
      | some x => out.set i (deepCopyInto x)
      | none => out)
    out

/-- A non-nil Go `map[string]string`: its entries, each key once.  A `range` over the map
visits the entries in the order of the list; every order is some value of this type. -/
abbrev StringMap := AList (fun _ : String => String)

/-- The statements `*out = make(map[string]string, len(*in))` and
`for key, val := range *in { (*out)[key] = val }`. -/
def copyMap (in_ : StringMap) : StringMap :=
  in_.entries.foldl (fun out entry => out.insert entry.1 entry.2) ∅

/-- The external type `apiextensionsv1.JSON`: raw JSON bytes, kept as their text. -/
structure RawJSON where
  Raw : String
deriving DecidableEq, Repr, Inhabited

/-- The struct `WorkloadGitRef`, with the fields that its `DeepCopyInto` names. -/
structure WorkloadGitRef where
  Branch : Option String
  Tag : Option String
  Commit : Option String
deriving DecidableEq, Repr, Inhabited

/-- The struct `WorkloadGit`, with the fields that its `DeepCopyInto` names. -/
structure WorkloadGit where
  URL : Option String
  Ref : Option WorkloadGitRef
deriving DecidableEq, Repr, Inhabited

/-- The struct `WorkloadSource`, with the fields that its `DeepCopyInto` names. -/
structure WorkloadSource where
  Git : Option WorkloadGit
  Image : Option String
  Subpath : Option String
deriving DecidableEq, Repr, Inhabited

/-- Modelled from the spec: the struct `ClusterTemplateReference` (its declaration is not
part of the sources at hand; its `DeepCopyInto` is the plain assignment `*out = *in`): a
stage references one template by kind and name. -/
structure ClusterTemplateReference where
  Kind : String
  Name : String
deriving DecidableEq, Repr, Inhabited

/-- Modelled from the spec: the struct `ComponentReference` (its declaration is not part of
the sources at hand; its `DeepCopyInto` is the plain assignment `*out = *in`): a reference
to a named output of another stage, by stage name and output name. -/
structure ComponentReference where
  Component : String
  Name : String
deriving DecidableEq, Repr, Inhabited

/-- The struct `SupplyChainParam`: the field `Value` that its `DeepCopyInto` names and,
modelled from the spec, the parameter name, copied by the assignment `*out = *in`. -/
structure SupplyChainParam where
  Name : String
  Value : RawJSON
deriving DecidableEq, Repr, Inhabited

/-- The struct `SupplyChainComponent`: the fields that its `DeepCopyInto` names and,
modelled from the spec, the stage name, copied by the assignment `*out = *in`.  A slice
field is `none` for a nil slice. -/
structure SupplyChainComponent where
  Name : String
  TemplateRef : ClusterTemplateReference
  Params : Option (List SupplyChainParam)
  Sources : Option (List ComponentReference)
  Images : Option (List ComponentReference)
  Configs : Option (List ComponentReference)
deriving DecidableEq, Repr, Inhabited

/-- The struct `SupplyChainSpec`, with the fields that its `DeepCopyInto` names; `none` is
a nil slice or a nil map. -/
structure SupplyChainSpec where
  Components : Option (List SupplyChainComponent)
  Selector : Option StringMap

/-- The method `WorkloadGitRef.DeepCopyInto`, as the value written to `out`. -/
def WorkloadGitRef.DeepCopyInto (in_ : WorkloadGitRef) : WorkloadGitRef :=
  -- *out = *in
  let out := in_
  -- if in.Branch != nil
  let out :=
    match in_.Branch with
    | some branch => { out with Branch := some branch }
    | none => out
  -- if in.Tag != nil
  let out :=
    match in_.Tag with
    | some tag => { out with Tag := some tag }
    | none => out
  -- if in.Commit != nil
  let out :=
    match in_.Commit with
    | some commit => { out with Commit := some commit }
    | none => out
  out

/-- The method `WorkloadGitRef.DeepCopy`; `none` is the nil pointer. -/
def WorkloadGitRef.DeepCopy : Option WorkloadGitRef → Option WorkloadGitRef
  | none => none
  | some in_ => some in_.DeepCopyInto

/-- The method `WorkloadGit.DeepCopyInto`, as the value written to `out`. -/
def WorkloadGit.DeepCopyInto (in_ : WorkloadGit) : WorkloadGit :=
  -- *out = *in
  let out := in_
  -- if in.URL != nil
  let out :=
    match in_.URL with
    | some url => { out with URL := some url }
    | none => out
  -- if in.Ref != nil
  let out :=
    match in_.Ref with
    | some ref => { out with Ref := some ref.DeepCopyInto }
    | none => out
  out

/-- The method `WorkloadGit.DeepCopy`; `none` is the nil pointer. -/
def WorkloadGit.DeepCopy : Option WorkloadGit → Option WorkloadGit
  | none => none
  | some in_ => some in_.DeepCopyInto

/-- The method `WorkloadSource.DeepCopyInto`, as the value written to `out`. -/
def WorkloadSource.DeepCopyInto (in_ : WorkloadSource) : WorkloadSource :=
  -- *out = *in
  let out := in_
  -- if in.Git != nil
  let out :=
    match in_.Git with
    | some git => { out with Git := some git.DeepCopyInto }
    | none => out
  -- if in.Image != nil
  let out :=
    match in_.Image with
    | some image => { out with Image := some image }
    | none => out
  -- if in.Subpath != nil
  let out :=
    match in_.Subpath with
    | some subpath => { out with Subpath := some subpath }
    | none => out
  out

/-- The method `WorkloadSource.DeepCopy`; `none` is the nil pointer. -/
def WorkloadSource.DeepCopy : Option WorkloadSource → Option WorkloadSource
  | none => none
  | some in_ => some in_.DeepCopyInto

/-- The method `SupplyChainParam.DeepCopyInto`, as the value written to `out`; `copyJSON`
is the external `apiextensionsv1.JSON.DeepCopyInto`. -/
def SupplyChainParam.DeepCopyInto (copyJSON : RawJSON → RawJSON) (in_ : SupplyChainParam) :
    SupplyChainParam :=
  -- *out = *in
  let out := in_
  -- in.Value.DeepCopyInto(&out.Value)
  { out with Value := copyJSON in_.Value }

/-- The method `SupplyChainComponent.DeepCopyInto`, as the value written to `out`. -/
def SupplyChainComponent.DeepCopyInto (copyJSON : RawJSON → RawJSON)
    (in_ : SupplyChainComponent) : SupplyChainComponent :=
  -- *out = *in
  let out := in_
  -- out.TemplateRef = in.TemplateRef
  let out := { out with TemplateRef := in_.TemplateRef }
  -- if in.Params != nil
  let out :=
    match in_.Params with
    | some params =>
      { out with Params := some (deepCopyEach (SupplyChainParam.DeepCopyInto copyJSON) params
          (makeSlice SupplyChainParam params.length)) }
    | none => out
  -- if in.Sources != nil
  let out :=
    match in_.Sources with
    | some sources =>
      { out with Sources := some (copySlice (makeSlice ComponentReference sources.length)
          sources) }
    | none => out
  -- if in.Images != nil
  let out :=
    match in_.Images with
    | some images =>
      { out with Images := some (copySlice (makeSlice ComponentReference images.length)
          images) }
    | none => out
  -- if in.Configs != nil
  let out :=
    match in_.Configs with
    | some configs =>
      { out with Configs := some (copySlice (makeSlice ComponentReference configs.length)
          configs) }
    | none => out
  out

/-- The method `SupplyChainComponent.DeepCopy`; `none` is the nil pointer. -/
def SupplyChainComponent.DeepCopy (copyJSON : RawJSON → RawJSON) :
    Option SupplyChainComponent → Option SupplyChainComponent
  | none => none
  | some in_ => some (in_.DeepCopyInto copyJSON)

/-- The method `SupplyChainSpec.DeepCopyInto`, as the value written to `out`. -/
def SupplyChainSpec.DeepCopyInto (copyJSON : RawJSON → RawJSON) (in_ : SupplyChainSpec) :
    SupplyChainSpec :=
  -- *out = *in
  let out := in_
  -- if in.Components != nil
  let out :=
    match in_.Components with
    | some components =>
      { out with Components := some (deepCopyEach
          (SupplyChainComponent.DeepCopyInto copyJSON) components
          (makeSlice SupplyChainComponent components.length)) }
    | none => out
  -- if in.Selector != nil
  let out :=
    match in_.Selector with
    | some selector => { out with Selector := some (copyMap selector) }
    | none => out
  out

/-- The method `SupplyChainSpec.DeepCopy`; `none` is the nil pointer. -/
def SupplyChainSpec.DeepCopy (copyJSON : RawJSON → RawJSON) :
    Option SupplyChainSpec → Option SupplyChainSpec
  | none => none
  | some in_ => some (in_.DeepCopyInto copyJSON)

/-- A sample source: a git repository at a branch, in a sub-directory. -/
def sampleSource : WorkloadSource :=
  ⟨some ⟨some "https://example.com/repo.git", some ⟨some "main", none, none⟩⟩, none,
    some "app"⟩

/-- A sample stage with two parameters, one source reference and an empty, non-nil list
of image references. -/
def sampleComponent : SupplyChainComponent :=
  ⟨"build", ⟨"ClusterImageTemplate", "kpack"⟩,
    some [⟨"port", ⟨"8080"⟩⟩, ⟨"retries", ⟨"3"⟩⟩],
    some [⟨"source-provider", "source"⟩], some [], none⟩

/-- A sample selector with two labels. -/
def sampleSelector : StringMap :=
  (((∅ : StringMap).insert "team" "web").insert "tier" "frontend")

/-- A sample supply chain: two stages and a selector. -/
def sampleSupplyChainSpec : SupplyChainSpec :=
  ⟨some [sampleComponent, ⟨"deploy", ⟨"ClusterTemplate", "app"⟩, none, none, none, none⟩],
    some sampleSelector⟩

/-! ## The shape of a pass -/

theorem Runnable.setConditions_ObservedGeneration (runnable : Runnable)
    (conditions : List Condition) :
    (runnable.setConditions conditions).Status.ObservedGeneration
      = runnable.Status.ObservedGeneration := rfl

theorem Runnable.setConditions_Generation (runnable : Runnable)
    (conditions : List Condition) :
    (runnable.setConditions conditions).Generation = runnable.Generation := rfl

/-- Every pass has one of three shapes: the fetch failed; the owner is absent; or the owner
exists and the pass is an `OwnerPass`. -/
theorem Reconcile_shape {W : Type} (r : Reconciler W) (fns : ConditionFns)
    (request : Request) (w : W) :
    (∃ ro e,
      (Reconcile r fns request w).Calls
        = [Call.GetRunnable request.Name request.Namespace ro (some e)]
      ∧ (Reconcile r fns request w).Err = some (Errorf "get runnable: %w" e)
      ∧ (Reconcile r fns request w).Owner = ro)
    ∨ ((Reconcile r fns request w).Calls
        = [Call.GetRunnable request.Name request.Namespace none none]
      ∧ (Reconcile r fns request w).Err = none
      ∧ (Reconcile r fns request w).Owner = none)
    ∨ (∃ run, OwnerPass fns request run (Reconcile r fns request w)) := by
  unfold Reconcile
  generalize r.Repo.GetRunnable request.Name request.Namespace w = fetched
  obtain ⟨⟨ro, ge⟩, w1⟩ := fetched
  cases ge with
  | some e => exact Or.inl ⟨ro, e, rfl, rfl, rfl⟩
  | none =>
    cases ro with
    | none => exact Or.inr (Or.inl ⟨rfl, rfl, rfl⟩)
    | some ru =>
      refine Or.inr (Or.inr ?_)
      simp only []
      generalize r.ConditionManagerBuilder RunnableReady ru.Status.Conditions w1 = built
      obtain ⟨cm, w2⟩ := built
      generalize r.Realizer.Realize ru w2 = realized
      obtain ⟨⟨so, outs, rerr⟩, w3⟩ := realized
      simp only []
      generalize cm.AddPositive (classify fns rerr).1 w3 = w4
      cases so with
      | none =>
        simp only [Runnable.setConditions_ObservedGeneration, Runnable.setConditions_Generation]
        generalize cm.Finalize w4 = fin
        obtain ⟨⟨cs, ch⟩, w5⟩ := fin
        by_cases hg : (ch || ru.Status.ObservedGeneration != ru.Generation) = true
        · have hg1 : ch = true ∨ ru.Status.ObservedGeneration ≠ ru.Generation := by
            simpa using hg
          simp only [hg, if_true]
          generalize r.Repo.StatusUpdate ((ru.setConditions cs).setOutputs outs) w5 = upd
          obtain ⟨ue, w6⟩ := upd
          cases ue with
          | none =>
            exact ⟨⟨ru, none, outs, rerr, cs, ch, [],
              [Call.StatusUpdate ((ru.setConditions cs).setOutputs outs) none],
              (classify fns rerr).2⟩, by simp, ⟨rfl, rfl⟩, by simp [UpdateOutcome, hg1]⟩
          | some ue =>
            exact ⟨⟨ru, none, outs, rerr, cs, ch, [],
              [Call.StatusUpdate ((ru.setConditions cs).setOutputs outs) (some ue)],
              (classify fns rerr).2⟩, by simp, ⟨rfl, rfl⟩, by simp [UpdateOutcome, hg1]⟩
        · have hg1 : ¬ (ch = true ∨ ru.Status.ObservedGeneration ≠ ru.Generation) := by
            simpa using hg
          simp only [hg]
          exact ⟨⟨ru, none, outs, rerr, cs, ch, [], [], (classify fns rerr).2⟩, by simp,
            ⟨rfl, rfl⟩, by simp [UpdateOutcome, hg1]⟩
      | some obj =>
        simp only []
        generalize r.DynamicTracker.Watch obj ⟨"Runnable"⟩ w4 = watched
        obtain ⟨te, w4a⟩ := watched
        cases te with
        | none =>
          simp only [Runnable.setConditions_ObservedGeneration,
            Runnable.setConditions_Generation]
          generalize cm.Finalize w4a = fin
          obtain ⟨⟨cs, ch⟩, w5⟩ := fin
          by_cases hg : (ch || ru.Status.ObservedGeneration != ru.Generation) = true
          · have hg1 : ch = true ∨ ru.Status.ObservedGeneration ≠ ru.Generation := by
              simpa using hg
            simp only [hg, if_true]
            generalize r.Repo.StatusUpdate ((ru.setConditions cs).setOutputs outs) w5 = upd
            obtain ⟨ue, w6⟩ := upd
            cases ue with
            | none =>
              exact ⟨⟨ru, some obj, outs, rerr, cs, ch, [Call.Watch obj ⟨"Runnable"⟩ none],
                [Call.StatusUpdate ((ru.setConditions cs).setOutputs outs) none],
                (classify fns rerr).2⟩, by simp, Or.inl ⟨rfl, rfl⟩,
                by simp [UpdateOutcome, hg1]⟩
            | some ue =>
              exact ⟨⟨ru, some obj, outs, rerr, cs, ch, [Call.Watch obj ⟨"Runnable"⟩ none],
                [Call.StatusUpdate ((ru.setConditions cs).setOutputs outs) (some ue)],
                (classify fns rerr).2⟩, by simp, Or.inl ⟨rfl, rfl⟩,
                by simp [UpdateOutcome, hg1]⟩
          · have hg1 : ¬ (ch = true ∨ ru.Status.ObservedGeneration ≠ ru.Generation) := by
              simpa using hg
            simp only [hg]
            exact ⟨⟨ru, some obj, outs, rerr, cs, ch, [Call.Watch obj ⟨"Runnable"⟩ none],
              [], (classify fns rerr).2⟩, by simp, Or.inl ⟨rfl, rfl⟩,
              by simp [UpdateOutcome, hg1]⟩
        | some te =>
          simp only [Runnable.setConditions_ObservedGeneration,
            Runnable.setConditions_Generation]
          generalize cm.Finalize w4a = fin
          obtain ⟨⟨cs, ch⟩, w5⟩ := fin
          by_cases hg : (ch || ru.Status.ObservedGeneration != ru.Generation) = true
          · have hg1 : ch = true ∨ ru.Status.ObservedGeneration ≠ ru.Generation := by
              simpa using hg
            simp only [hg, if_true]
            generalize r.Repo.StatusUpdate ((ru.setConditions cs).setOutputs outs) w5 = upd
            obtain ⟨ue, w6⟩ := upd
            cases ue with
            | none =>
              exact ⟨⟨ru, some obj, outs, rerr, cs, ch,
                [Call.Watch obj ⟨"Runnable"⟩ (some te)],
                [Call.StatusUpdate ((ru.setConditions cs).setOutputs outs) none],
                some (NewUnhandledError te)⟩, by simp, Or.inr ⟨te, rfl, rfl⟩,
                by simp [UpdateOutcome, hg1]⟩
            | some ue =>
              exact ⟨⟨ru, some obj, outs, rerr, cs, ch,
                [Call.Watch obj ⟨"Runnable"⟩ (some te)],
                [Call.StatusUpdate ((ru.setConditions cs).setOutputs outs) (some ue)],
                some (NewUnhandledError te)⟩, by simp, Or.inr ⟨te, rfl, rfl⟩,
                by simp [UpdateOutcome, hg1]⟩
          · have hg1 : ¬ (ch = true ∨ ru.Status.ObservedGeneration ≠ ru.Generation) := by
              simpa using hg
            simp only [hg]
            exact ⟨⟨ru, some obj, outs, rerr, cs, ch,
              [Call.Watch obj ⟨"Runnable"⟩ (some te)],
              [], some (NewUnhandledError te)⟩, by simp, Or.inr ⟨te, rfl, rfl⟩,
              by simp [UpdateOutcome, hg1]⟩

/-- The result is the zero `ctrl.Result` on every path. -/
theorem Reconcile_Result {W : Type} (r : Reconciler W) (fns : ConditionFns)
    (request : Request) (w : W) : (Reconcile r fns request w).Result = Result.zero := by
  unfold Reconcile
  simp only []
  repeat (first | rfl | split)

/-- The watch step logs calls of `DynamicTracker.Watch` only. -/
theorem WatchOutcome.isWatch {stampedObject : Option Unstructured} {err : Option GoError}
    {watchCalls : List Call} {err1 : Option GoError}
    (h : WatchOutcome stampedObject err watchCalls err1) :
    ∀ c ∈ watchCalls, c.isWatch = true := by
  unfold WatchOutcome at h
  split at h
  · simp [h.1]
  · rcases h with ⟨h, -⟩ | ⟨te, h, -⟩ <;> simp [h, Call.isWatch]

/-- The status-write step logs calls of `Repo.StatusUpdate` only. -/
theorem UpdateOutcome.isStatusUpdate {runnable : Runnable} {conditions : List Condition}
    {changed : Bool} {outputs : Outputs} {err1 : Option GoError} {updateCalls : List Call}
    {returned : Option GoError} {owner : Option Runnable}
    (h : UpdateOutcome runnable conditions changed outputs err1 updateCalls returned owner) :
    ∀ c ∈ updateCalls, c.isStatusUpdate = true := by
  unfold UpdateOutcome at h
  split at h
  · rcases h with ⟨-, ⟨h, -⟩ | ⟨ue, h, -⟩⟩ <;> simp [h, Call.isStatusUpdate]
  · simp [h.2.1]

/-- The error carried on from the watch step: the watch error marked as unhandled when the
watch failed, the error left by the type switch when no watch failed. -/
theorem WatchOutcome.err_cases {stampedObject : Option Unstructured} {err : Option GoError}
    {watchCalls : List Call} {err1 : Option GoError}
    (h : WatchOutcome stampedObject err watchCalls err1) :
    (∃ stamped trackingError, stampedObject = some stamped
        ∧ watchCalls = [Call.Watch stamped ⟨"Runnable"⟩ (some trackingError)]
        ∧ err1 = some (NewUnhandledError trackingError))
    ∨ ((∀ stamped handler e, Call.Watch stamped handler (some e) ∉ watchCalls)
        ∧ err1 = err) := by
  unfold WatchOutcome at h
  split at h
  · exact Or.inr ⟨by simp [h.1], h.2⟩
  · rcases h with ⟨h, h1⟩ | ⟨te, h, h1⟩
    · exact Or.inr ⟨by simp [h], h1⟩
    · exact Or.inl ⟨_, te, rfl, h, h1⟩

/-- The error returned by the status-write step: the wrapped status-update error when the
write failed, the error of lines 106-113 when no write failed. -/
theorem UpdateOutcome.returned_cases {runnable : Runnable} {conditions : List Condition}
    {changed : Bool} {outputs : Outputs} {err1 : Option GoError} {updateCalls : List Call}
    {returned : Option GoError} {owner : Option Runnable}
    (h : UpdateOutcome runnable conditions changed outputs err1 updateCalls returned owner) :
    (∃ statusUpdateError,
        updateCalls = [Call.StatusUpdate ((runnable.setConditions conditions).setOutputs outputs)
          (some statusUpdateError)]
        ∧ returned = some (Errorf "update runnable status: %w" statusUpdateError))
    ∨ ((∀ updated e, Call.StatusUpdate updated (some e) ∉ updateCalls)
        ∧ returned = returnedError err1) := by
  unfold UpdateOutcome at h
  split at h
  · rcases h with ⟨-, ⟨h, h1⟩ | ⟨ue, h, h1⟩⟩
    · exact Or.inr ⟨by simp [h], h1⟩
    · exact Or.inl ⟨ue, h, h1⟩
  · exact Or.inr ⟨by simp [h.2.1], h.2.2⟩

/-- The status-write step calls `Repo.StatusUpdate` exactly when the guard of line 98
holds, and then once, on the owner carrying the finalized conditions and the outputs. -/
theorem UpdateOutcome.calls_cases {runnable : Runnable} {conditions : List Condition}
    {changed : Bool} {outputs : Outputs} {err1 : Option GoError} {updateCalls : List Call}
    {returned : Option GoError} {owner : Option Runnable}
    (h : UpdateOutcome runnable conditions changed outputs err1 updateCalls returned owner) :
    ((changed = true ∨ runnable.Status.ObservedGeneration ≠ runnable.Generation)
        ∧ owner = some ((runnable.setConditions conditions).setOutputs outputs)
        ∧ ∃ e, updateCalls
          = [Call.StatusUpdate ((runnable.setConditions conditions).setOutputs outputs) e])
    ∨ (¬ (changed = true ∨ runnable.Status.ObservedGeneration ≠ runnable.Generation)
        ∧ owner = some (runnable.setConditions conditions) ∧ updateCalls = []) := by
  unfold UpdateOutcome at h
  split at h
  · rename_i hg
    rcases h with ⟨ho, ⟨h, -⟩ | ⟨ue, h, -⟩⟩
    · exact Or.inl ⟨hg, ho, none, h⟩
    · exact Or.inl ⟨hg, ho, some ue, h⟩
  · rename_i hg
    exact Or.inr ⟨hg, h.1, h.2.1⟩

/-- Membership in the call log of an `OwnerPass`. -/
theorem OwnerPass.mem_iff {W : Type} {fns : ConditionFns} {request : Request}
    {run : OwnerRun} {p : Pass W} (h : OwnerPass fns request run p) (c : Call) :
    c ∈ p.Calls ↔
      c = Call.GetRunnable request.Name request.Namespace (some run.runnable) none
      ∨ c = Call.ConditionManagerBuilder RunnableReady run.runnable.Status.Conditions
      ∨ c = Call.Realize run.runnable run.stampedObject run.outputs run.err
      ∨ c = Call.AddPositive (classify fns run.err).1
      ∨ c ∈ run.watchCalls
      ∨ c = Call.Finalize run.conditions run.changed
      ∨ c ∈ run.updateCalls := by
  rw [h.1]
  simp only [List.mem_append, List.mem_cons, List.mem_singleton, List.not_mem_nil, or_false]
  tauto

/-- The `Realize` call of an `OwnerPass`. -/
theorem OwnerPass.mem_Realize {W : Type} {fns : ConditionFns} {request : Request}
    {run : OwnerRun} {p : Pass W} (h : OwnerPass fns request run p) (runnable : Runnable)
    (stampedObject : Option Unstructured) (outputs : Outputs) (err : Option GoError) :
    Call.Realize runnable stampedObject outputs err ∈ p.Calls ↔
      runnable = run.runnable ∧ stampedObject = run.stampedObject ∧ outputs = run.outputs
        ∧ err = run.err := by
  rw [h.mem_iff]
  constructor
  · rintro (hc | hc | hc | hc | hc | hc | hc)
    · exact absurd hc (by simp)
    · exact absurd hc (by simp)
    · injection hc with h1 h2 h3 h4
      exact ⟨h1, h2, h3, h4⟩
    · exact absurd hc (by simp)
    · exact absurd (h.2.1.isWatch _ hc) (by simp [Call.isWatch])
    · exact absurd hc (by simp)
    · exact absurd (h.2.2.isStatusUpdate _ hc) (by simp [Call.isStatusUpdate])
  · rintro ⟨rfl, rfl, rfl, rfl⟩
    exact Or.inr (Or.inr (Or.inl rfl))

/-- The `GetRunnable` call of an `OwnerPass`. -/
theorem OwnerPass.mem_GetRunnable {W : Type} {fns : ConditionFns} {request : Request}
    {run : OwnerRun} {p : Pass W} (h : OwnerPass fns request run p) (name ns : String)
    (runnable : Option Runnable) (err : Option GoError) :
    Call.GetRunnable name ns runnable err ∈ p.Calls ↔
      name = request.Name ∧ ns = request.Namespace ∧ runnable = some run.runnable
        ∧ err = none := by
  rw [h.mem_iff]
  constructor
  · rintro (hc | hc | hc | hc | hc | hc | hc)
    · injection hc with h1 h2 h3 h4
      exact ⟨h1, h2, h3, h4⟩
    · exact absurd hc (by simp)
    · exact absurd hc (by simp)
    · exact absurd hc (by simp)
    · exact absurd (h.2.1.isWatch _ hc) (by simp [Call.isWatch])
    · exact absurd hc (by simp)
    · exact absurd (h.2.2.isStatusUpdate _ hc) (by simp [Call.isStatusUpdate])
  · rintro ⟨rfl, rfl, rfl, rfl⟩
    exact Or.inl rfl

/-- The `AddPositive` call of an `OwnerPass`. -/
theorem OwnerPass.mem_AddPositive {W : Type} {fns : ConditionFns} {request : Request}
    {run : OwnerRun} {p : Pass W} (h : OwnerPass fns request run p) (condition : Condition) :
    Call.AddPositive condition ∈ p.Calls ↔ condition = (classify fns run.err).1 := by
  rw [h.mem_iff]
  constructor
  · rintro (hc | hc | hc | hc | hc | hc | hc)
    · exact absurd hc (by simp)
    · exact absurd hc (by simp)
    · exact absurd hc (by simp)
    · injection hc
    · exact absurd (h.2.1.isWatch _ hc) (by simp [Call.isWatch])
    · exact absurd hc (by simp)
    · exact absurd (h.2.2.isStatusUpdate _ hc) (by simp [Call.isStatusUpdate])
  · rintro rfl
    exact Or.inr (Or.inr (Or.inr (Or.inl rfl)))

/-- The `Finalize` call of an `OwnerPass`. -/
theorem OwnerPass.mem_Finalize {W : Type} {fns : ConditionFns} {request : Request}
    {run : OwnerRun} {p : Pass W} (h : OwnerPass fns request run p)
    (conditions : List Condition) (changed : Bool) :
    Call.Finalize conditions changed ∈ p.Calls ↔
      conditions = run.conditions ∧ changed = run.changed := by
  rw [h.mem_iff]
  constructor
  · rintro (hc | hc | hc | hc | hc | hc | hc)
    · exact absurd hc (by simp)
    · exact absurd hc (by simp)
    · exact absurd hc (by simp)
    · exact absurd hc (by simp)
    · exact absurd (h.2.1.isWatch _ hc) (by simp [Call.isWatch])
    · injection hc with h1 h2
      exact ⟨h1, h2⟩
    · exact absurd (h.2.2.isStatusUpdate _ hc) (by simp [Call.isStatusUpdate])
  · rintro ⟨rfl, rfl⟩
    exact Or.inr (Or.inr (Or.inr (Or.inr (Or.inr (Or.inl rfl)))))

/-- The `Watch` calls of an `OwnerPass` are those of the watch step. -/
theorem OwnerPass.mem_Watch {W : Type} {fns : ConditionFns} {request : Request}
    {run : OwnerRun} {p : Pass W} (h : OwnerPass fns request run p)
    (stamped : Unstructured) (handler : EnqueueRequestForOwner) (err : Option GoError) :
    Call.Watch stamped handler err ∈ p.Calls ↔
      Call.Watch stamped handler err ∈ run.watchCalls := by
  rw [h.mem_iff]
  constructor
  · rintro (hc | hc | hc | hc | hc | hc | hc)
    · exact absurd hc (by simp)
    · exact absurd hc (by simp)
    · exact absurd hc (by simp)
    · exact absurd hc (by simp)
    · exact hc
    · exact absurd hc (by simp)
    · exact absurd (h.2.2.isStatusUpdate _ hc) (by simp [Call.isStatusUpdate])
  · intro hc
    exact Or.inr (Or.inr (Or.inr (Or.inr (Or.inl hc))))

/-- The `StatusUpdate` calls of an `OwnerPass` are those of the status-write step. -/
theorem OwnerPass.mem_StatusUpdate {W : Type} {fns : ConditionFns} {request : Request}
    {run : OwnerRun} {p : Pass W} (h : OwnerPass fns request run p)
    (updated : Runnable) (err : Option GoError) :
    Call.StatusUpdate updated err ∈ p.Calls ↔
      Call.StatusUpdate updated err ∈ run.updateCalls := by
  rw [h.mem_iff]
  constructor
  · rintro (hc | hc | hc | hc | hc | hc | hc)
    · exact absurd hc (by simp)
    · exact absurd hc (by simp)
    · exact absurd hc (by simp)
    · exact absurd hc (by simp)
    · exact absurd (h.2.1.isWatch _ hc) (by simp [Call.isWatch])
    · exact absurd hc (by simp)
    · exact hc
  · intro hc
    exact Or.inr (Or.inr (Or.inr (Or.inr (Or.inr (Or.inr hc)))))

/-- The `Watch` calls of an `OwnerPass`, in order, are those of the watch step. -/
theorem OwnerPass.filter_isWatch {W : Type} {fns : ConditionFns} {request : Request}
    {run : OwnerRun} {p : Pass W} (h : OwnerPass fns request run p) :
    p.Calls.filter Call.isWatch = run.watchCalls := by
  have hw : run.watchCalls.filter Call.isWatch = run.watchCalls :=
    List.filter_eq_self.mpr h.2.1.isWatch
  have hu : run.updateCalls.filter Call.isWatch = [] := by
    rw [List.filter_eq_nil_iff]
    intro c hc
    have := h.2.2.isStatusUpdate c hc
    cases c <;> simp_all [Call.isWatch, Call.isStatusUpdate]
  rw [h.1]
  simp [List.filter_append, List.filter_cons, Call.isWatch, hw, hu]

/-- The `StatusUpdate` calls of an `OwnerPass`, in order, are those of the status-write
step. -/
theorem OwnerPass.filter_isStatusUpdate {W : Type} {fns : ConditionFns} {request : Request}
    {run : OwnerRun} {p : Pass W} (h : OwnerPass fns request run p) :
    p.Calls.filter Call.isStatusUpdate = run.updateCalls := by
  have hu : run.updateCalls.filter Call.isStatusUpdate = run.updateCalls :=
    List.filter_eq_self.mpr h.2.2.isStatusUpdate
  have hw : run.watchCalls.filter Call.isStatusUpdate = [] := by
    rw [List.filter_eq_nil_iff]
    intro c hc
    have := h.2.1.isWatch c hc
    cases c <;> simp_all [Call.isWatch, Call.isStatusUpdate]
  rw [h.1]
  simp [List.filter_append, List.filter_cons, Call.isStatusUpdate, hw, hu]

/-- The one `AddPositive` call of an `OwnerPass`. -/
theorem OwnerPass.filter_isAddPositive {W : Type} {fns : ConditionFns} {request : Request}
    {run : OwnerRun} {p : Pass W} (h : OwnerPass fns request run p) :
    p.Calls.filter Call.isAddPositive = [Call.AddPositive (classify fns run.err).1] := by
  have hw : run.watchCalls.filter Call.isAddPositive = [] := by
    rw [List.filter_eq_nil_iff]
    intro c hc
    have := h.2.1.isWatch c hc
    cases c <;> simp_all [Call.isWatch, Call.isAddPositive]
  have hu : run.updateCalls.filter Call.isAddPositive = [] := by
    rw [List.filter_eq_nil_iff]
    intro c hc
    have := h.2.2.isStatusUpdate c hc
    cases c <;> simp_all [Call.isAddPositive, Call.isStatusUpdate]
  rw [h.1]
  simp [List.filter_append, List.filter_cons, Call.isAddPositive, hw, hu]

/-- A pass that called `Realize` is an `OwnerPass` with the values of that call. -/
theorem Reconcile_of_Realize {W : Type} (r : Reconciler W) (fns : ConditionFns)
    (request : Request) (w : W) (runnable : Runnable) (stampedObject : Option Unstructured)
    (outputs : Outputs) (err : Option GoError)
    (h : Call.Realize runnable stampedObject outputs err ∈ (Reconcile r fns request w).Calls) :
    ∃ run, OwnerPass fns request run (Reconcile r fns request w)
      ∧ run.runnable = runnable ∧ run.stampedObject = stampedObject
      ∧ run.outputs = outputs ∧ run.err = err := by
  rcases Reconcile_shape r fns request w with ⟨ro, e, hc, -, -⟩ | ⟨hc, -, -⟩ | ⟨run, hp⟩
  · rw [hc] at h; simp at h
  · rw [hc] at h; simp at h
  · obtain ⟨h1, h2, h3, h4⟩ := (hp.mem_Realize _ _ _ _).mp h
    exact ⟨run, hp, h1.symm, h2.symm, h3.symm, h4.symm⟩

/-- A pass that fetched an owner without error is an `OwnerPass` on that owner. -/
theorem Reconcile_of_owner {W : Type} (r : Reconciler W) (fns : ConditionFns)
    (request : Request) (w : W) (runnable : Runnable)
    (h : Call.GetRunnable request.Name request.Namespace (some runnable) none
      ∈ (Reconcile r fns request w).Calls) :
    ∃ run, OwnerPass fns request run (Reconcile r fns request w)
      ∧ run.runnable = runnable := by
  rcases Reconcile_shape r fns request w with ⟨ro, e, hc, -, -⟩ | ⟨hc, -, -⟩ | ⟨run, hp⟩
  · rw [hc] at h; simp at h
  · rw [hc] at h; simp at h
  · obtain ⟨-, -, h3, -⟩ := (hp.mem_GetRunnable _ _ _ _).mp h
    exact ⟨run, hp, (Option.some.inj h3).symm⟩

/-- An error marked by `NewUnhandledError` is returned by lines 106-113. -/
theorem returnedError_NewUnhandledError (err : GoError) :
    returnedError (some (NewUnhandledError err)) = some (NewUnhandledError err) := by
  simp [returnedError, NewUnhandledError, IsUnhandledError]

/-! ## Error classification -/

/-- C1: in a pass in which the owner exists (`Realize` is called on it) and
`Realizer.Realize` returns a `RetrieveOutputError`, `Reconcile` hands
`OutputPathNotSatisfiedCondition` to the condition manager and, when neither the watch
registration nor the status write fails, returns a nil error. -/
theorem Reconcile_RetrieveOutputError_reported {W : Type} (r : Reconciler W)
    (fns : ConditionFns) (request : Request) (w : W) (runnable : Runnable)
    (stampedObject : Option Unstructured) (outputs : Outputs) (detail : String)
    (hRealize : Call.Realize runnable stampedObject outputs
      (some (GoError.RetrieveOutputError detail)) ∈ (Reconcile r fns request w).Calls) :
    Call.AddPositive (fns.OutputPathNotSatisfiedCondition (GoError.RetrieveOutputError detail))
        ∈ (Reconcile r fns request w).Calls
    ∧ ((∀ stamped handler e,
          Call.Watch stamped handler (some e) ∉ (Reconcile r fns request w).Calls) →
       (∀ updated e, Call.StatusUpdate updated (some e) ∉ (Reconcile r fns request w).Calls) →
       (Reconcile r fns request w).Err = none) := by
  obtain ⟨run, hp, -, -, -, herr⟩ := Reconcile_of_Realize r fns request w _ _ _ _ hRealize
  refine ⟨(hp.mem_AddPositive _).mpr (by rw [herr]; rfl), ?_⟩
  intro hNoWatch hNoUpdate
  rcases hp.2.2.returned_cases with ⟨ue, huc, -⟩ | ⟨-, hret⟩
  · exact (hNoUpdate _ ue ((hp.mem_StatusUpdate _ _).mpr
      (by rw [huc]; exact List.mem_singleton.mpr rfl))).elim
  · rcases hp.2.1.err_cases with ⟨stamped, te, -, hwc, -⟩ | ⟨-, herr1⟩
    · exact (hNoWatch stamped ⟨"Runnable"⟩ te ((hp.mem_Watch _ _ _).mpr
        (by rw [hwc]; exact List.mem_singleton.mpr rfl))).elim
    · rw [hret, herr1, herr]
      simp [classify, returnedError, IsUnhandledError]

/-- Witness of C1: the stamped object is watched, the status is written, and the pass
returns nil. -/
theorem Reconcile_RetrieveOutputError_reported_witness :
    Call.Realize sampleRunnable (some sampleStamped) []
        (some (GoError.RetrieveOutputError "no output yet"))
      ∈ (Reconcile (scripted (some sampleRunnable) none
          ⟨some sampleStamped, [], some (GoError.RetrieveOutputError "no output yet")⟩
          none ([], true) none) sampleFns sampleRequest ()).Calls
    ∧ (Reconcile (scripted (some sampleRunnable) none
          ⟨some sampleStamped, [], some (GoError.RetrieveOutputError "no output yet")⟩
          none ([], true) none) sampleFns sampleRequest ()).Err = none :=
  ⟨by decide,
    (Reconcile_RetrieveOutputError_reported _ sampleFns sampleRequest () sampleRunnable
      (some sampleStamped) [] "no output yet" (by decide)).2
      (by intro stamped handler e h; revert h; simp [Reconcile, scripted, classify])
      (by intro updated e h; revert h; simp [Reconcile, scripted, classify])⟩

/-- C2: in a pass in which the owner exists and `Realizer.Realize` returns a
`GetRunTemplateError`, an `ApplyStampedObjectError` or a `ListCreatedObjectsError`,
`Reconcile` hands the condition of that error to the condition manager, still calls
`Finalize` and takes the status-write decision of line 98, and returns a non-nil error,
whatever the watch and the status write do. -/
theorem Reconcile_escalated_errors {W : Type} (r : Reconciler W) (fns : ConditionFns)
    (request : Request) (w : W) (runnable : Runnable) (stampedObject : Option Unstructured)
    (outputs : Outputs) (err : GoError) (condition : Condition)
    (hRealize : Call.Realize runnable stampedObject outputs (some err)
      ∈ (Reconcile r fns request w).Calls)
    (hKind :
      (∃ d, err = GoError.GetRunTemplateError d
        ∧ condition = fns.RunTemplateMissingCondition err)
      ∨ (∃ d, err = GoError.ApplyStampedObjectError d
        ∧ condition = fns.StampedObjectRejectedByAPIServerCondition err)
      ∨ (∃ d, err = GoError.ListCreatedObjectsError d
        ∧ condition = fns.FailedToListCreatedObjectsCondition err)) :
    Call.AddPositive condition ∈ (Reconcile r fns request w).Calls
    ∧ (∃ conditions changed,
        Call.Finalize conditions changed ∈ (Reconcile r fns request w).Calls
        ∧ ((∃ updated e, Call.StatusUpdate updated e ∈ (Reconcile r fns request w).Calls)
          ↔ (changed = true ∨ runnable.Status.ObservedGeneration ≠ runnable.Generation)))
    ∧ (Reconcile r fns request w).Err ≠ none := by
  obtain ⟨run, hp, hru, -, -, herr⟩ := Reconcile_of_Realize r fns request w _ _ _ _ hRealize
  have hcl : (classify fns run.err).1 = condition
      ∧ (classify fns run.err).2 = some (NewUnhandledError err) := by
    rw [herr]
    rcases hKind with ⟨d, rfl, rfl⟩ | ⟨d, rfl, rfl⟩ | ⟨d, rfl, rfl⟩ <;>
      exact ⟨rfl, rfl⟩
  refine ⟨(hp.mem_AddPositive _).mpr hcl.1.symm, ⟨run.conditions, run.changed,
    (hp.mem_Finalize _ _).mpr ⟨rfl, rfl⟩, ?_⟩, ?_⟩
  · subst hru
    rcases hp.2.2.calls_cases with ⟨hg, -, e, huc⟩ | ⟨hg, -, huc⟩
    · exact ⟨fun _ => hg, fun _ => ⟨_, e, (hp.mem_StatusUpdate _ _).mpr
        (by rw [huc]; exact List.mem_singleton.mpr rfl)⟩⟩
    · refine ⟨fun ⟨updated, e, hm⟩ => ?_, fun h => absurd h hg⟩
      have := (hp.mem_StatusUpdate _ _).mp hm
      rw [huc] at this
      simp at this
  · rcases hp.2.2.returned_cases with ⟨ue, -, hret⟩ | ⟨-, hret⟩
    · rw [hret]; simp
    · rcases hp.2.1.err_cases with ⟨stamped, te, -, -, herr1⟩ | ⟨-, herr1⟩
      · rw [hret, herr1, returnedError_NewUnhandledError]; simp
      · rw [hret, herr1, hcl.2, returnedError_NewUnhandledError]; simp

/-- Witness of C2: the template is missing, the watch is not attempted, the status write
succeeds, and the pass still returns the error marked as unhandled. -/
theorem Reconcile_escalated_errors_witness :
    Call.Realize sampleRunnable none [] (some (GoError.GetRunTemplateError "not found"))
      ∈ (Reconcile (scripted (some sampleRunnable) none
          ⟨none, [], some (GoError.GetRunTemplateError "not found")⟩
          none ([], true) none) sampleFns sampleRequest ()).Calls
    ∧ (Reconcile (scripted (some sampleRunnable) none
          ⟨none, [], some (GoError.GetRunTemplateError "not found")⟩
          none ([], true) none) sampleFns sampleRequest ()).Err ≠ none :=
  ⟨by decide,
    (Reconcile_escalated_errors _ sampleFns sampleRequest () sampleRunnable none []
      (GoError.GetRunTemplateError "not found")
      (sampleFns.RunTemplateMissingCondition (GoError.GetRunTemplateError "not found"))
      (by decide) (Or.inl ⟨"not found", rfl, rfl⟩)).2.2⟩

/-! ## The status write -/

/-- C3: in a pass in which the owner exists, `Repo.StatusUpdate` is called if and only if
`Finalize` reported `changed = true` or the owner's `Status.ObservedGeneration` differs
from its `Generation`. -/
theorem Reconcile_StatusUpdate_iff {W : Type} (r : Reconciler W) (fns : ConditionFns)
    (request : Request) (w : W) (runnable : Runnable)
    (hOwner : Call.GetRunnable request.Name request.Namespace (some runnable) none
      ∈ (Reconcile r fns request w).Calls) :
    (∃ updated e, Call.StatusUpdate updated e ∈ (Reconcile r fns request w).Calls)
      ↔ ((∃ conditions, Call.Finalize conditions true ∈ (Reconcile r fns request w).Calls)
        ∨ runnable.Status.ObservedGeneration ≠ runnable.Generation) := by
  obtain ⟨run, hp, rfl⟩ := Reconcile_of_owner r fns request w _ hOwner
  have hfin : (∃ conditions, Call.Finalize conditions true ∈ (Reconcile r fns request w).Calls)
      ↔ run.changed = true := by
    constructor
    · rintro ⟨cs, hm⟩
      exact ((hp.mem_Finalize _ _).mp hm).2.symm
    · intro hch
      exact ⟨run.conditions, (hp.mem_Finalize _ _).mpr ⟨rfl, hch.symm⟩⟩
  rw [hfin]
  rcases hp.2.2.calls_cases with ⟨hg, -, e, huc⟩ | ⟨hg, -, huc⟩
  · exact ⟨fun _ => hg, fun _ => ⟨_, e, (hp.mem_StatusUpdate _ _).mpr
      (by rw [huc]; exact List.mem_singleton.mpr rfl)⟩⟩
  · refine ⟨fun ⟨updated, e, hm⟩ => ?_, fun h => absurd h hg⟩
    have := (hp.mem_StatusUpdate _ _).mp hm
    rw [huc] at this
    simp at this

/-- Witness of C3: a pass over an owner whose observed generation lags behind its
generation writes status although `Finalize` reported no change. -/
theorem Reconcile_StatusUpdate_iff_witness :
    Call.GetRunnable sampleRequest.Name sampleRequest.Namespace
        (some sampleStaleRunnable) none
      ∈ (Reconcile (scripted (some sampleStaleRunnable) none
          ⟨none, [], none⟩ none ([], false) none) sampleFns sampleRequest ()).Calls
    ∧ ((∃ updated e, Call.StatusUpdate updated e
        ∈ (Reconcile (scripted (some sampleStaleRunnable) none
            ⟨none, [], none⟩ none ([], false) none) sampleFns sampleRequest ()).Calls)
      ↔ ((∃ conditions, Call.Finalize conditions true
          ∈ (Reconcile (scripted (some sampleStaleRunnable) none
              ⟨none, [], none⟩ none ([], false) none) sampleFns sampleRequest ()).Calls)
        ∨ sampleStaleRunnable.Status.ObservedGeneration
          ≠ sampleStaleRunnable.Generation)) :=
  ⟨by decide,
    Reconcile_StatusUpdate_iff _ sampleFns sampleRequest ()
      sampleStaleRunnable (by decide)⟩

/-- C4: when `Repo.GetRunnable` returns no owner and no error, `Reconcile` returns the zero
`ctrl.Result` and a nil error, and its only collaborator call is that `GetRunnable`: it calls
none of `Realize`, `Watch`, `Finalize` and `StatusUpdate`. -/
theorem Reconcile_owner_absent {W : Type} (r : Reconciler W) (fns : ConditionFns)
    (request : Request) (w : W)
    (hAbsent : Call.GetRunnable request.Name request.Namespace none none
      ∈ (Reconcile r fns request w).Calls) :
    (Reconcile r fns request w).Result = Result.zero
    ∧ (Reconcile r fns request w).Err = none
    ∧ (Reconcile r fns request w).Calls
        = [Call.GetRunnable request.Name request.Namespace none none]
    ∧ ∀ c ∈ (Reconcile r fns request w).Calls,
        c.isRealize = false ∧ c.isWatch = false ∧ c.isFinalize = false
          ∧ c.isStatusUpdate = false := by
  rcases Reconcile_shape r fns request w with
    ⟨ro, e, hc, -, -⟩ | ⟨hc, he, -⟩ | ⟨run, hp⟩
  · rw [hc] at hAbsent; simp at hAbsent
  · refine ⟨Reconcile_Result r fns request w, he, hc, ?_⟩
    rw [hc]
    intro c hm
    rw [List.mem_singleton] at hm
    subst hm
    exact ⟨rfl, rfl, rfl, rfl⟩
  · have := (hp.mem_GetRunnable _ _ _ _).mp hAbsent
    simp at this

/-- Witness of C4: the owner was deleted between the event and the pass. -/
theorem Reconcile_owner_absent_witness :
    Call.GetRunnable sampleRequest.Name sampleRequest.Namespace none none
      ∈ (Reconcile (scripted none none ⟨none, [], none⟩ none ([], true) none)
          sampleFns sampleRequest ()).Calls
    ∧ (Reconcile (scripted none none ⟨none, [], none⟩ none ([], true) none)
          sampleFns sampleRequest ()).Err = none :=
  ⟨by decide,
    (Reconcile_owner_absent _ sampleFns sampleRequest () (by decide)).2.1⟩

/-! ## Watch registration and status-write failures -/

/-- C5: in a pass in which the realizer returned a stamped object and `DynamicTracker.Watch`
returned an error, `Reconcile` returns a non-nil error, whatever the realizer's own error
(none, reported-only or escalated). -/
theorem Reconcile_Watch_failure_escalated {W : Type} (r : Reconciler W) (fns : ConditionFns)
    (request : Request) (w : W) (runnable : Runnable) (stamped : Unstructured)
    (outputs : Outputs) (err : Option GoError) (handler : EnqueueRequestForOwner)
    (trackingError : GoError)
    (hRealize : Call.Realize runnable (some stamped) outputs err
      ∈ (Reconcile r fns request w).Calls)
    (hWatch : Call.Watch stamped handler (some trackingError)
      ∈ (Reconcile r fns request w).Calls) :
    (Reconcile r fns request w).Err ≠ none := by
  obtain ⟨run, hp, -, -, -, -⟩ := Reconcile_of_Realize r fns request w _ _ _ _ hRealize
  rcases hp.2.2.returned_cases with ⟨ue, -, hret⟩ | ⟨-, hret⟩
  · rw [hret]; simp
  · rcases hp.2.1.err_cases with ⟨s, te, -, -, herr1⟩ | ⟨hno, -⟩
    · rw [hret, herr1, returnedError_NewUnhandledError]; simp
    · exact (hno _ _ _ ((hp.mem_Watch _ _ _).mp hWatch)).elim

/-- Witness of C5: the realizer succeeds, the watch fails, the status write succeeds. -/
theorem Reconcile_Watch_failure_escalated_witness :
    Call.Realize sampleRunnable (some sampleStamped) [] none
      ∈ (Reconcile (scripted (some sampleRunnable) none ⟨some sampleStamped, [], none⟩
          (some (GoError.errorString "no kind registered")) ([], true) none)
          sampleFns sampleRequest ()).Calls
    ∧ Call.Watch sampleStamped ⟨"Runnable"⟩ (some (GoError.errorString "no kind registered"))
      ∈ (Reconcile (scripted (some sampleRunnable) none ⟨some sampleStamped, [], none⟩
          (some (GoError.errorString "no kind registered")) ([], true) none)
          sampleFns sampleRequest ()).Calls
    ∧ (Reconcile (scripted (some sampleRunnable) none ⟨some sampleStamped, [], none⟩
          (some (GoError.errorString "no kind registered")) ([], true) none)
          sampleFns sampleRequest ()).Err ≠ none :=
  ⟨by decide, by decide,
    Reconcile_Watch_failure_escalated _ sampleFns sampleRequest () sampleRunnable
      sampleStamped [] none ⟨"Runnable"⟩ (GoError.errorString "no kind registered")
      (by decide) (by decide)⟩

/-- C6: in a pass in which `Repo.StatusUpdate` is called and fails, `Reconcile` returns
the error built by `fmt.Errorf("update runnable status: %w", ...)`, which is non-nil and
wraps the status-update error, whatever the realizer and the watch returned. -/
theorem Reconcile_StatusUpdate_failure {W : Type} (r : Reconciler W) (fns : ConditionFns)
    (request : Request) (w : W) (updated : Runnable) (statusUpdateError : GoError)
    (hUpdate : Call.StatusUpdate updated (some statusUpdateError)
      ∈ (Reconcile r fns request w).Calls) :
    (Reconcile r fns request w).Err
        = some (Errorf "update runnable status: %w" statusUpdateError)
    ∧ (Reconcile r fns request w).Err ≠ none
    ∧ (Reconcile r fns request w).Err.bind Unwrap = some statusUpdateError := by
  have hErr : (Reconcile r fns request w).Err
      = some (Errorf "update runnable status: %w" statusUpdateError) := by
    rcases Reconcile_shape r fns request w with
      ⟨ro, e, hc, -, -⟩ | ⟨hc, -, -⟩ | ⟨run, hp⟩
    · rw [hc] at hUpdate; simp at hUpdate
    · rw [hc] at hUpdate; simp at hUpdate
    · have hm := (hp.mem_StatusUpdate _ _).mp hUpdate
      rcases hp.2.2.returned_cases with ⟨ue, huc, hret⟩ | ⟨hno, -⟩
      · rw [huc, List.mem_singleton] at hm
        injection hm with h1 h2
        rw [hret, Option.some.inj h2]
      · exact (hno _ _ hm).elim
  rw [hErr]
  exact ⟨rfl, by simp, rfl⟩

/-- Witness of C6: the realizer reports an unready output, the watch succeeds, and the
status write fails. -/
theorem Reconcile_StatusUpdate_failure_witness :
    Call.StatusUpdate ((sampleRunnable.setConditions []).setOutputs [])
        (some (GoError.errorString "conflict"))
      ∈ (Reconcile (scripted (some sampleRunnable) none
          ⟨some sampleStamped, [], some (GoError.RetrieveOutputError "no output yet")⟩
          none ([], true) (some (GoError.errorString "conflict")))
          sampleFns sampleRequest ()).Calls
    ∧ (Reconcile (scripted (some sampleRunnable) none
          ⟨some sampleStamped, [], some (GoError.RetrieveOutputError "no output yet")⟩
          none ([], true) (some (GoError.errorString "conflict")))
          sampleFns sampleRequest ()).Err
        = some (Errorf "update runnable status: %w" (GoError.errorString "conflict")) :=
  ⟨by decide,
    (Reconcile_StatusUpdate_failure _ sampleFns sampleRequest ()
      ((sampleRunnable.setConditions []).setOutputs [])
      (GoError.errorString "conflict") (by decide)).1⟩

/-- C7: in every pass `Reconcile` hands exactly one condition to the condition manager;
when `Realizer.Realize` returns an error that is none of `GetRunTemplateError`,
`ResolveSelectorError`, `StampError`, `ApplyStampedObjectError`, `ListCreatedObjectsError`
and `RetrieveOutputError`, that one condition is `UnknownErrorCondition` and `Reconcile`
returns a non-nil error. -/
theorem Reconcile_unknown_error_escalated {W : Type} (r : Reconciler W) (fns : ConditionFns)
    (request : Request) (w : W) (runnable : Runnable) (stampedObject : Option Unstructured)
    (outputs : Outputs) (err : GoError)
    (hRealize : Call.Realize runnable stampedObject outputs (some err)
      ∈ (Reconcile r fns request w).Calls) :
    ((Reconcile r fns request w).Calls.filter Call.isAddPositive).length = 1
    ∧ ((∀ d, err ≠ GoError.GetRunTemplateError d) →
       (∀ d, err ≠ GoError.ResolveSelectorError d) →
       (∀ d, err ≠ GoError.StampError d) →
       (∀ d, err ≠ GoError.ApplyStampedObjectError d) →
       (∀ d, err ≠ GoError.ListCreatedObjectsError d) →
       (∀ d, err ≠ GoError.RetrieveOutputError d) →
       (Reconcile r fns request w).Calls.filter Call.isAddPositive
          = [Call.AddPositive (fns.UnknownErrorCondition err)]
        ∧ (Reconcile r fns request w).Err ≠ none) := by
  obtain ⟨run, hp, -, -, -, herr⟩ := Reconcile_of_Realize r fns request w _ _ _ _ hRealize
  refine ⟨by rw [hp.filter_isAddPositive]; rfl, ?_⟩
  intro h1 h2 h3 h4 h5 h6
  have hcl : classify fns (some err)
      = (fns.UnknownErrorCondition err, some (NewUnhandledError err)) := by
    cases err with
    | GetRunTemplateError d => exact absurd rfl (h1 d)
    | ResolveSelectorError d => exact absurd rfl (h2 d)
    | StampError d => exact absurd rfl (h3 d)
    | ApplyStampedObjectError d => exact absurd rfl (h4 d)
    | ListCreatedObjectsError d => exact absurd rfl (h5 d)
    | RetrieveOutputError d => exact absurd rfl (h6 d)
    | unhandledError e => rfl
    | wrapError f e => rfl
    | errorString m => rfl
  refine ⟨by rw [hp.filter_isAddPositive, herr, hcl], ?_⟩
  rcases hp.2.2.returned_cases with ⟨ue, -, hret⟩ | ⟨-, hret⟩
  · rw [hret]; simp
  · rcases hp.2.1.err_cases with ⟨s, te, -, -, herr1⟩ | ⟨-, herr1⟩
    · rw [hret, herr1, returnedError_NewUnhandledError]; simp
    · rw [hret, herr1, herr, hcl, returnedError_NewUnhandledError]; simp

/-- Witness of C7: an error of no realizer type, with no stamped object and a status write
that succeeds. -/
theorem Reconcile_unknown_error_escalated_witness :
    Call.Realize sampleRunnable none [] (some (GoError.errorString "connection refused"))
      ∈ (Reconcile (scripted (some sampleRunnable) none
          ⟨none, [], some (GoError.errorString "connection refused")⟩ none ([], true) none)
          sampleFns sampleRequest ()).Calls
    ∧ (Reconcile (scripted (some sampleRunnable) none
          ⟨none, [], some (GoError.errorString "connection refused")⟩ none ([], true) none)
          sampleFns sampleRequest ()).Calls.filter Call.isAddPositive
        = [Call.AddPositive
            (sampleFns.UnknownErrorCondition (GoError.errorString "connection refused"))]
    ∧ (Reconcile (scripted (some sampleRunnable) none
          ⟨none, [], some (GoError.errorString "connection refused")⟩ none ([], true) none)
          sampleFns sampleRequest ()).Err ≠ none :=
  ⟨by decide,
    (Reconcile_unknown_error_escalated _ sampleFns sampleRequest () sampleRunnable none []
      (GoError.errorString "connection refused") (by decide)).2
      (fun _ => by simp) (fun _ => by simp) (fun _ => by simp) (fun _ => by simp)
      (fun _ => by simp) (fun _ => by simp)⟩

/-- C8: in a pass in which the owner exists and `Realizer.Realize` returns a
`ResolveSelectorError` or a `StampError`, `Reconcile` hands `TemplateStampFailureCondition`
to the condition manager and, when neither the watch registration nor the status write
fails, returns a nil error. -/
theorem Reconcile_stamp_failure_reported {W : Type} (r : Reconciler W) (fns : ConditionFns)
    (request : Request) (w : W) (runnable : Runnable) (stampedObject : Option Unstructured)
    (outputs : Outputs) (err : GoError)
    (hRealize : Call.Realize runnable stampedObject outputs (some err)
      ∈ (Reconcile r fns request w).Calls)
    (hKind : (∃ d, err = GoError.ResolveSelectorError d)
      ∨ (∃ d, err = GoError.StampError d)) :
    Call.AddPositive (fns.TemplateStampFailureCondition err)
        ∈ (Reconcile r fns request w).Calls
    ∧ ((∀ stamped handler e,
          Call.Watch stamped handler (some e) ∉ (Reconcile r fns request w).Calls) →
       (∀ updated e, Call.StatusUpdate updated (some e) ∉ (Reconcile r fns request w).Calls) →
       (Reconcile r fns request w).Err = none) := by
  obtain ⟨run, hp, -, -, -, herr⟩ := Reconcile_of_Realize r fns request w _ _ _ _ hRealize
  have hcl : classify fns (some err) = (fns.TemplateStampFailureCondition err, some err)
      ∧ IsUnhandledError err = false := by
    rcases hKind with ⟨d, rfl⟩ | ⟨d, rfl⟩ <;> exact ⟨rfl, rfl⟩
  refine ⟨(hp.mem_AddPositive _).mpr (by rw [herr, hcl.1]), ?_⟩
  intro hNoWatch hNoUpdate
  rcases hp.2.2.returned_cases with ⟨ue, huc, -⟩ | ⟨-, hret⟩
  · exact (hNoUpdate _ ue ((hp.mem_StatusUpdate _ _).mpr
      (by rw [huc]; exact List.mem_singleton.mpr rfl))).elim
  · rcases hp.2.1.err_cases with ⟨stamped, te, -, hwc, -⟩ | ⟨-, herr1⟩
    · exact (hNoWatch stamped ⟨"Runnable"⟩ te ((hp.mem_Watch _ _ _).mpr
        (by rw [hwc]; exact List.mem_singleton.mpr rfl))).elim
    · rw [hret, herr1, herr, hcl.1]
      simp [returnedError, hcl.2]

/-- Witness of C8: stamping fails, nothing is watched, the status is written, and the pass
returns nil. -/
theorem Reconcile_stamp_failure_reported_witness :
    Call.Realize sampleRunnable none [] (some (GoError.StampError "missing parameter"))
      ∈ (Reconcile (scripted (some sampleRunnable) none
          ⟨none, [], some (GoError.StampError "missing parameter")⟩ none ([], true) none)
          sampleFns sampleRequest ()).Calls
    ∧ (Reconcile (scripted (some sampleRunnable) none
          ⟨none, [], some (GoError.StampError "missing parameter")⟩ none ([], true) none)
          sampleFns sampleRequest ()).Err = none :=
  ⟨by decide,
    (Reconcile_stamp_failure_reported _ sampleFns sampleRequest () sampleRunnable none []
      (GoError.StampError "missing parameter") (by decide) (Or.inr ⟨_, rfl⟩)).2
      (by intro stamped handler e h; revert h; simp [Reconcile, scripted, classify])
      (by intro updated e h; revert h; simp [Reconcile, scripted, classify])⟩

/-- C9: in a pass in which the owner exists, `DynamicTracker.Watch` is called exactly once,
on the stamped object, when the realizer returned a stamped object (whatever error it
returned with it), and is not called when the stamped object is nil. -/
theorem Reconcile_Watch_once {W : Type} (r : Reconciler W) (fns : ConditionFns)
    (request : Request) (w : W) (runnable : Runnable) (stampedObject : Option Unstructured)
    (outputs : Outputs) (err : Option GoError)
    (hRealize : Call.Realize runnable stampedObject outputs err
      ∈ (Reconcile r fns request w).Calls) :
    match stampedObject with
    | some stamped =>
      ∃ trackingError, (Reconcile r fns request w).Calls.filter Call.isWatch
        = [Call.Watch stamped ⟨"Runnable"⟩ trackingError]
    | none => (Reconcile r fns request w).Calls.filter Call.isWatch = [] := by
  obtain ⟨run, hp, -, hso, -, -⟩ := Reconcile_of_Realize r fns request w _ _ _ _ hRealize
  rw [hp.filter_isWatch]
  have hw := hp.2.1
  rw [hso] at hw
  unfold WatchOutcome at hw
  cases stampedObject with
  | none => exact hw.1
  | some stamped =>
    rcases hw with ⟨h, -⟩ | ⟨te, h, -⟩
    · exact ⟨none, h⟩
    · exact ⟨some te, h⟩

/-- Witness of C9: the realizer returns a stamped object together with an error, and the
object is watched once. -/
theorem Reconcile_Watch_once_witness :
    Call.Realize sampleRunnable (some sampleStamped) []
        (some (GoError.RetrieveOutputError "no output yet"))
      ∈ (Reconcile (scripted (some sampleRunnable) none
          ⟨some sampleStamped, [], some (GoError.RetrieveOutputError "no output yet")⟩
          none ([], true) none) sampleFns sampleRequest ()).Calls
    ∧ ∃ trackingError, (Reconcile (scripted (some sampleRunnable) none
          ⟨some sampleStamped, [], some (GoError.RetrieveOutputError "no output yet")⟩
          none ([], true) none) sampleFns sampleRequest ()).Calls.filter Call.isWatch
        = [Call.Watch sampleStamped ⟨"Runnable"⟩ trackingError] :=
  ⟨by decide,
    Reconcile_Watch_once _ sampleFns sampleRequest () sampleRunnable (some sampleStamped) []
      (some (GoError.RetrieveOutputError "no output yet")) (by decide)⟩

/-! ## The outputs in the owner's status -/

/-- C10, counterexample: the owner is ready and up to date, the realizer returns outputs
that differ from the stored ones, `Finalize` reports no change, and the pass ends without a
status write, leaving the stored outputs in place. -/
theorem Reconcile_outputs_not_written :
    Call.Realize sampleReadyRunnable (some sampleStamped) [("image", "v2")] none
      ∈ (Reconcile (scripted (some sampleReadyRunnable) none
          ⟨some sampleStamped, [("image", "v2")], none⟩ none
          (sampleReadyRunnable.Status.Conditions, false) none)
          sampleFns sampleRequest ()).Calls
    ∧ Call.Finalize sampleReadyRunnable.Status.Conditions false
      ∈ (Reconcile (scripted (some sampleReadyRunnable) none
          ⟨some sampleStamped, [("image", "v2")], none⟩ none
          (sampleReadyRunnable.Status.Conditions, false) none)
          sampleFns sampleRequest ()).Calls
    ∧ [("image", "v2")] ≠ sampleReadyRunnable.Status.Outputs
    ∧ (Reconcile (scripted (some sampleReadyRunnable) none
          ⟨some sampleStamped, [("image", "v2")], none⟩ none
          (sampleReadyRunnable.Status.Conditions, false) none)
          sampleFns sampleRequest ()).Calls.filter Call.isStatusUpdate = []
    ∧ (Reconcile (scripted (some sampleReadyRunnable) none
          ⟨some sampleStamped, [("image", "v2")], none⟩ none
          (sampleReadyRunnable.Status.Conditions, false) none)
          sampleFns sampleRequest ()).Owner = some sampleReadyRunnable := by
  decide

/-- C10, amended: in a pass that reaches finalization, when `Finalize` reported
`changed = true` or the owner's `Status.ObservedGeneration` differs from its `Generation`,
`Reconcile` calls `Repo.StatusUpdate` once, on the owner with `Status.Outputs` equal to the
realizer's outputs; when neither holds it calls no `StatusUpdate` and leaves the owner's
`Status.Outputs` as fetched, whether or not the realizer's outputs differ from them. -/
theorem Reconcile_outputs_written_when_guard {W : Type} (r : Reconciler W)
    (fns : ConditionFns) (request : Request) (w : W) (runnable : Runnable)
    (stampedObject : Option Unstructured) (outputs : Outputs) (err : Option GoError)
    (hRealize : Call.Realize runnable stampedObject outputs err
      ∈ (Reconcile r fns request w).Calls) :
    (((∃ conditions, Call.Finalize conditions true ∈ (Reconcile r fns request w).Calls)
        ∨ runnable.Status.ObservedGeneration ≠ runnable.Generation) →
      ∃ updated e,
        (Reconcile r fns request w).Calls.filter Call.isStatusUpdate
          = [Call.StatusUpdate updated e]
        ∧ updated.Status.Outputs = outputs)
    ∧ (¬ ((∃ conditions, Call.Finalize conditions true ∈ (Reconcile r fns request w).Calls)
        ∨ runnable.Status.ObservedGeneration ≠ runnable.Generation) →
      (Reconcile r fns request w).Calls.filter Call.isStatusUpdate = []
      ∧ ∃ owner, (Reconcile r fns request w).Owner = some owner
        ∧ owner.Status.Outputs = runnable.Status.Outputs) := by
  obtain ⟨run, hp, hru, -, hout, -⟩ := Reconcile_of_Realize r fns request w _ _ _ _ hRealize
  subst hru hout
  have hfin : (∃ conditions, Call.Finalize conditions true ∈ (Reconcile r fns request w).Calls)
      ↔ run.changed = true := by
    constructor
    · rintro ⟨cs, hm⟩
      exact ((hp.mem_Finalize _ _).mp hm).2.symm
    · intro hch
      exact ⟨run.conditions, (hp.mem_Finalize _ _).mpr ⟨rfl, hch.symm⟩⟩
  rw [hfin, hp.filter_isStatusUpdate]
  rcases hp.2.2.calls_cases with ⟨hg, -, e, huc⟩ | ⟨hg, ho, huc⟩
  · exact ⟨fun _ => ⟨_, e, huc, rfl⟩, fun h => absurd hg h⟩
  · exact ⟨fun h => absurd h hg, fun _ => ⟨huc, _, ho, rfl⟩⟩

/-- Witness of C10, amended: the condition set changed, so the new outputs are written. -/
theorem Reconcile_outputs_written_when_guard_witness :
    Call.Realize sampleReadyRunnable (some sampleStamped) [("image", "v2")] none
      ∈ (Reconcile (scripted (some sampleReadyRunnable) none
          ⟨some sampleStamped, [("image", "v2")], none⟩ none
          (sampleReadyRunnable.Status.Conditions, true) none)
          sampleFns sampleRequest ()).Calls
    ∧ ∃ updated e,
        (Reconcile (scripted (some sampleReadyRunnable) none
          ⟨some sampleStamped, [("image", "v2")], none⟩ none
          (sampleReadyRunnable.Status.Conditions, true) none)
          sampleFns sampleRequest ()).Calls.filter Call.isStatusUpdate
          = [Call.StatusUpdate updated e]
        ∧ updated.Status.Outputs = [("image", "v2")] :=
  ⟨by decide,
    (Reconcile_outputs_written_when_guard _ sampleFns sampleRequest () sampleReadyRunnable
      (some sampleStamped) [("image", "v2")] none (by decide)).1
      (Or.inl ⟨sampleReadyRunnable.Status.Conditions, by decide⟩)⟩


/-! ## The ClusterRunTemplate admission hook: validation -/

/-- The validation rejects a body that sets the namespace, before it looks at the spec. -/
theorem validate_of_setsNamespace (format : JSON → String) (spec : RunTemplateSpec)
    (h : setsNamespace spec.Template = true) :
    spec.validate format = some (GoError.errorString
      "invalid template: template should not set metadata.namespace on the child object") := by
  simp [RunTemplateSpec.validate, h]

/-- The validation of a body that does not set the namespace is decided by its spec. -/
theorem validate_of_not_setsNamespace (format : JSON → String) (spec : RunTemplateSpec)
    (h : setsNamespace spec.Template = false) :
    spec.validate format =
      if hasSpec spec.Template then none
      else some (GoError.errorString
        ("invalid template: object must have a spec; templated object: "
          ++ format spec.Template)) := by
  simp [RunTemplateSpec.validate, h]

/-- Whether a body sets the namespace does not depend on its `kind` member. -/
theorem setsNamespace_kind (kind : JSON) (fields : List (String × JSON)) :
    setsNamespace (JSON.object (("kind", kind) :: fields))
      = setsNamespace (JSON.object fields) := by
  have hne : ("metadata" == "kind") = false := by decide
  simp [setsNamespace, JSON.field, List.lookup, hne]

/-- C11: for every ClusterRunTemplate whose template body sets `metadata.namespace` on the
child object, `ValidateCreate` and `ValidateUpdate`, with any old object or none, fail with
exactly the error
"invalid template: template should not set metadata.namespace on the child object"; and
they fail in the same way when the body is given any other `kind`. -/
theorem ValidateCreate_ValidateUpdate_namespace (format : JSON → String)
    (t : ClusterRunTemplate) (hNamespace : setsNamespace t.Spec.Template = true) :
    t.ValidateCreate format = some (GoError.errorString
      "invalid template: template should not set metadata.namespace on the child object")
    ∧ (∀ old, t.ValidateUpdate format old = some (GoError.errorString
      "invalid template: template should not set metadata.namespace on the child object"))
    ∧ ∀ fields kind old, t.Spec.Template = JSON.object fields →
        ClusterRunTemplate.ValidateCreate format
            ⟨t.Name, t.Namespace, ⟨JSON.object (("kind", kind) :: fields), t.Spec.Outputs⟩⟩
          = some (GoError.errorString
          "invalid template: template should not set metadata.namespace on the child object")
        ∧ ClusterRunTemplate.ValidateUpdate format
            ⟨t.Name, t.Namespace, ⟨JSON.object (("kind", kind) :: fields), t.Spec.Outputs⟩⟩
            old
          = some (GoError.errorString
          "invalid template: template should not set metadata.namespace on the child object")
    := by
  refine ⟨validate_of_setsNamespace format t.Spec hNamespace,
    fun _ => validate_of_setsNamespace format t.Spec hNamespace, ?_⟩
  intro fields kind old hbody
  rw [hbody] at hNamespace
  have h : setsNamespace (JSON.object (("kind", kind) :: fields)) = true := by
    rw [setsNamespace_kind, hNamespace]
  exact ⟨validate_of_setsNamespace format ⟨_, t.Spec.Outputs⟩ h,
    validate_of_setsNamespace format ⟨_, t.Spec.Outputs⟩ h⟩

/-- Witness of C11: the namespaced body of the webhook tests. -/
theorem ValidateCreate_ValidateUpdate_namespace_witness :
    setsNamespace (sampleTemplate sampleNamespacedBody).Spec.Template = true
    ∧ (sampleTemplate sampleNamespacedBody).ValidateCreate sampleFormat
      = some (GoError.errorString
        "invalid template: template should not set metadata.namespace on the child object")
    ∧ ∀ old, (sampleTemplate sampleNamespacedBody).ValidateUpdate sampleFormat old
      = some (GoError.errorString
        "invalid template: template should not set metadata.namespace on the child object") :=
  ⟨by decide,
    (ValidateCreate_ValidateUpdate_namespace sampleFormat
      (sampleTemplate sampleNamespacedBody) (by decide)).1,
    (ValidateCreate_ValidateUpdate_namespace sampleFormat
      (sampleTemplate sampleNamespacedBody) (by decide)).2.1⟩

/-- The modelled hook gives what the webhook tests expect on their three bodies: the
well-formed body is accepted, the body that sets the namespace gets the namespace error,
and the ConfigMap with only data gets the error about the missing spec. -/
theorem ValidateCreate_on_test_bodies :
    (sampleTemplate sampleWellFormedBody).ValidateCreate sampleFormat = none
    ∧ (sampleTemplate sampleNamespacedBody).ValidateCreate sampleFormat
      = some (GoError.errorString
        "invalid template: template should not set metadata.namespace on the child object")
    ∧ (sampleTemplate sampleConfigMapBody).ValidateCreate sampleFormat
      = some (GoError.errorString
        "invalid template: object must have a spec; templated object: <object>") := by
  decide

/-- C13: for every ClusterRunTemplate whose template body has a non-empty spec and does not
set `metadata.namespace`, `ValidateCreate` and `ValidateUpdate`, with any old object or
none, succeed; and for every ClusterRunTemplate the verdict of `ValidateUpdate` is the same
for any two old objects. -/
theorem ValidateCreate_ValidateUpdate_well_formed (format : JSON → String)
    (t : ClusterRunTemplate) (hSpec : hasSpec t.Spec.Template = true)
    (hNamespace : setsNamespace t.Spec.Template = false) :
    t.ValidateCreate format = none
    ∧ (∀ old, t.ValidateUpdate format old = none)
    ∧ ∀ (t2 : ClusterRunTemplate) (old1 old2 : Option ClusterRunTemplate),
        t2.ValidateUpdate format old1 = t2.ValidateUpdate format old2 := by
  have hv : t.Spec.validate format = none := by
    rw [validate_of_not_setsNamespace format t.Spec hNamespace, hSpec]
    rfl
  exact ⟨hv, fun _ => hv, fun _ _ _ => rfl⟩

/-- Witness of C13: the well-formed body of the webhook tests. -/
theorem ValidateCreate_ValidateUpdate_well_formed_witness :
    hasSpec (sampleTemplate sampleWellFormedBody).Spec.Template = true
    ∧ setsNamespace (sampleTemplate sampleWellFormedBody).Spec.Template = false
    ∧ (sampleTemplate sampleWellFormedBody).ValidateCreate sampleFormat = none
    ∧ ∀ old, (sampleTemplate sampleWellFormedBody).ValidateUpdate sampleFormat old = none :=
  ⟨by decide, by decide,
    (ValidateCreate_ValidateUpdate_well_formed sampleFormat
      (sampleTemplate sampleWellFormedBody) (by decide) (by decide)).1,
    (ValidateCreate_ValidateUpdate_well_formed sampleFormat
      (sampleTemplate sampleWellFormedBody) (by decide) (by decide)).2.1⟩

/-- C14: `ValidateDelete` returns no error for every ClusterRunTemplate and for a nil
template, also for a template that `ValidateCreate` and `ValidateUpdate` reject. -/
theorem ValidateDelete_succeeds :
    (∀ t : Option ClusterRunTemplate, ClusterRunTemplate.ValidateDelete t = none)
    ∧ ClusterRunTemplate.ValidateDelete none = none
    ∧ ∀ (format : JSON → String) (t : ClusterRunTemplate)
        (old : Option ClusterRunTemplate),
        t.ValidateCreate format ≠ none → t.ValidateUpdate format old ≠ none →
        ClusterRunTemplate.ValidateDelete (some t) = none :=
  ⟨fun _ => rfl, rfl, fun _ _ _ _ _ => rfl⟩


/-! ## More on the shape of a pass -/

/-- The three ways in which the watch step can go. -/
theorem WatchOutcome.watch_cases {stampedObject : Option Unstructured} {err : Option GoError}
    {watchCalls : List Call} {err1 : Option GoError}
    (h : WatchOutcome stampedObject err watchCalls err1) :
    (stampedObject = none ∧ watchCalls = [] ∧ err1 = err)
    ∨ (∃ stamped, stampedObject = some stamped
        ∧ watchCalls = [Call.Watch stamped ⟨"Runnable"⟩ none] ∧ err1 = err)
    ∨ (∃ stamped trackingError, stampedObject = some stamped
        ∧ watchCalls = [Call.Watch stamped ⟨"Runnable"⟩ (some trackingError)]
        ∧ err1 = some (NewUnhandledError trackingError)) := by
  unfold WatchOutcome at h
  split at h
  · exact Or.inl ⟨rfl, h.1, h.2⟩
  · rcases h with ⟨h, h1⟩ | ⟨te, h, h1⟩
    · exact Or.inr (Or.inl ⟨_, rfl, h, h1⟩)
    · exact Or.inr (Or.inr ⟨_, te, rfl, h, h1⟩)

/-- The three ways in which the status-write step can go. -/
theorem UpdateOutcome.update_cases {runnable : Runnable} {conditions : List Condition}
    {changed : Bool} {outputs : Outputs} {err1 : Option GoError} {updateCalls : List Call}
    {returned : Option GoError} {owner : Option Runnable}
    (h : UpdateOutcome runnable conditions changed outputs err1 updateCalls returned owner) :
    (updateCalls = [] ∧ returned = returnedError err1)
    ∨ (updateCalls
          = [Call.StatusUpdate ((runnable.setConditions conditions).setOutputs outputs) none]
        ∧ returned = returnedError err1)
    ∨ (∃ statusUpdateError,
        updateCalls = [Call.StatusUpdate ((runnable.setConditions conditions).setOutputs outputs)
          (some statusUpdateError)]
        ∧ returned = some (Errorf "update runnable status: %w" statusUpdateError)) := by
  unfold UpdateOutcome at h
  split at h
  · rcases h with ⟨-, ⟨h, h1⟩ | ⟨ue, h, h1⟩⟩
    · exact Or.inr (Or.inl ⟨h, h1⟩)
    · exact Or.inr (Or.inr ⟨ue, h, h1⟩)
  · exact Or.inl ⟨h.2.1, h.2.2⟩

/-- The type switch leaves no error when the realizer returned none. -/
theorem classify_none (fns : ConditionFns) :
    classify fns none = (fns.RunTemplateReadyCondition, none) := rfl

/-- The type switch leaves an error of a reported-only kind unmarked. -/
theorem classify_err_of_ReportedOnly (fns : ConditionFns) (err : GoError)
    (h : ReportedOnly err) :
    (classify fns (some err)).2 = some err ∧ IsUnhandledError err = false := by
  rcases h with ⟨d, rfl⟩ | ⟨d, rfl⟩ | ⟨d, rfl⟩ <;> exact ⟨rfl, rfl⟩

/-- The type switch marks every error of another kind as unhandled. -/
theorem classify_err_of_not_ReportedOnly (fns : ConditionFns) (err : GoError)
    (h : ¬ ReportedOnly err) :
    (classify fns (some err)).2 = some (NewUnhandledError err) := by
  cases err with
  | ResolveSelectorError d => exact absurd (Or.inl ⟨d, rfl⟩) h
  | StampError d => exact absurd (Or.inr (Or.inl ⟨d, rfl⟩)) h
  | RetrieveOutputError d => exact absurd (Or.inr (Or.inr ⟨d, rfl⟩)) h
  | GetRunTemplateError d => rfl
  | ApplyStampedObjectError d => rfl
  | ListCreatedObjectsError d => rfl
  | unhandledError e => rfl
  | wrapError f e => rfl
  | errorString m => rfl

/-- Lines 106-113 return nil for the error left by the type switch exactly when the
realizer returned no error or an error of a reported-only kind. -/
theorem returnedError_classify_eq_none_iff (fns : ConditionFns) (err : Option GoError) :
    returnedError (classify fns err).2 = none
      ↔ (err = none ∨ ∃ e, err = some e ∧ ReportedOnly e) := by
  cases err with
  | none => simp [classify_none, returnedError]
  | some e =>
    by_cases h : ReportedOnly e
    · obtain ⟨h1, h2⟩ := classify_err_of_ReportedOnly fns e h
      rw [h1]
      simp [returnedError, h2, h]
    · rw [classify_err_of_not_ReportedOnly fns e h, returnedError_NewUnhandledError]
      simp [h]

/-- The one `GetRunnable` call of an `OwnerPass`. -/
theorem OwnerPass.filter_isGetRunnable {W : Type} {fns : ConditionFns} {request : Request}
    {run : OwnerRun} {p : Pass W} (h : OwnerPass fns request run p) :
    p.Calls.filter Call.isGetRunnable
      = [Call.GetRunnable request.Name request.Namespace (some run.runnable) none] := by
  have hw : run.watchCalls.filter Call.isGetRunnable = [] := by
    rw [List.filter_eq_nil_iff]
    intro c hc
    have := h.2.1.isWatch c hc
    cases c <;> simp_all [Call.isWatch, Call.isGetRunnable]
  have hu : run.updateCalls.filter Call.isGetRunnable = [] := by
    rw [List.filter_eq_nil_iff]
    intro c hc
    have := h.2.2.isStatusUpdate c hc
    cases c <;> simp_all [Call.isGetRunnable, Call.isStatusUpdate]
  rw [h.1]
  simp [List.filter_append, List.filter_cons, Call.isGetRunnable, hw, hu]

/-- The one `Realize` call of an `OwnerPass`. -/
theorem OwnerPass.filter_isRealize {W : Type} {fns : ConditionFns} {request : Request}
    {run : OwnerRun} {p : Pass W} (h : OwnerPass fns request run p) :
    p.Calls.filter Call.isRealize
      = [Call.Realize run.runnable run.stampedObject run.outputs run.err] := by
  have hw : run.watchCalls.filter Call.isRealize = [] := by
    rw [List.filter_eq_nil_iff]
    intro c hc
    have := h.2.1.isWatch c hc
    cases c <;> simp_all [Call.isWatch, Call.isRealize]
  have hu : run.updateCalls.filter Call.isRealize = [] := by
    rw [List.filter_eq_nil_iff]
    intro c hc
    have := h.2.2.isStatusUpdate c hc
    cases c <;> simp_all [Call.isRealize, Call.isStatusUpdate]
  rw [h.1]
  simp [List.filter_append, List.filter_cons, Call.isRealize, hw, hu]

/-- The one `Finalize` call of an `OwnerPass`. -/
theorem OwnerPass.filter_isFinalize {W : Type} {fns : ConditionFns} {request : Request}
    {run : OwnerRun} {p : Pass W} (h : OwnerPass fns request run p) :
    p.Calls.filter Call.isFinalize = [Call.Finalize run.conditions run.changed] := by
  have hw : run.watchCalls.filter Call.isFinalize = [] := by
    rw [List.filter_eq_nil_iff]
    intro c hc
    have := h.2.1.isWatch c hc
    cases c <;> simp_all [Call.isWatch, Call.isFinalize]
  have hu : run.updateCalls.filter Call.isFinalize = [] := by
    rw [List.filter_eq_nil_iff]
    intro c hc
    have := h.2.2.isStatusUpdate c hc
    cases c <;> simp_all [Call.isFinalize, Call.isStatusUpdate]
  rw [h.1]
  simp [List.filter_append, List.filter_cons, Call.isFinalize, hw, hu]

/-- The one `ConditionManagerBuilder` call of an `OwnerPass`. -/
theorem OwnerPass.filter_isConditionManagerBuilder {W : Type} {fns : ConditionFns}
    {request : Request} {run : OwnerRun} {p : Pass W} (h : OwnerPass fns request run p) :
    p.Calls.filter Call.isConditionManagerBuilder
      = [Call.ConditionManagerBuilder RunnableReady run.runnable.Status.Conditions] := by
  have hw : run.watchCalls.filter Call.isConditionManagerBuilder = [] := by
    rw [List.filter_eq_nil_iff]
    intro c hc
    have := h.2.1.isWatch c hc
    cases c <;> simp_all [Call.isWatch, Call.isConditionManagerBuilder]
  have hu : run.updateCalls.filter Call.isConditionManagerBuilder = [] := by
    rw [List.filter_eq_nil_iff]
    intro c hc
    have := h.2.2.isStatusUpdate c hc
    cases c <;> simp_all [Call.isConditionManagerBuilder, Call.isStatusUpdate]
  rw [h.1]
  simp [List.filter_append, List.filter_cons, Call.isConditionManagerBuilder, hw, hu]


/-! ## The returned error -/

/-- C15: `Reconcile` returns a nil error if and only if `Repo.GetRunnable` did not fail and
either the owner is absent or all three hold: the realizer returned no error or an error
of a reported-only kind; the stamped object is nil or `DynamicTracker.Watch` succeeded;
`Repo.StatusUpdate` was not called or succeeded. -/
theorem Reconcile_Err_eq_none_iff {W : Type} (r : Reconciler W) (fns : ConditionFns)
    (request : Request) (w : W) :
    (Reconcile r fns request w).Err = none ↔
      (∀ name ns runnable e,
        Call.GetRunnable name ns runnable (some e) ∉ (Reconcile r fns request w).Calls)
      ∧ (Call.GetRunnable request.Name request.Namespace none none
          ∈ (Reconcile r fns request w).Calls
        ∨ ∃ runnable stampedObject outputs err,
          Call.Realize runnable stampedObject outputs err ∈ (Reconcile r fns request w).Calls
          ∧ (err = none ∨ ∃ e, err = some e ∧ ReportedOnly e)
          ∧ (stampedObject = none
            ∨ ∃ stamped handler,
              Call.Watch stamped handler none ∈ (Reconcile r fns request w).Calls)
          ∧ ((∀ updated e,
                Call.StatusUpdate updated e ∉ (Reconcile r fns request w).Calls)
            ∨ ∃ updated,
              Call.StatusUpdate updated none ∈ (Reconcile r fns request w).Calls)) := by
  rcases Reconcile_shape r fns request w with
    ⟨ro, e, hc, he, -⟩ | ⟨hc, he, -⟩ | ⟨run, hp⟩
  · rw [he, hc]
    constructor
    · intro h
      exact absurd h (by simp)
    · rintro ⟨h, -⟩
      exact absurd (List.mem_singleton.mpr rfl) (h _ _ ro e)
  · rw [he, hc]
    refine ⟨fun _ => ⟨?_, Or.inl (List.mem_singleton.mpr rfl)⟩, fun _ => rfl⟩
    intro name ns runnable e h
    rw [List.mem_singleton] at h
    injection h with _ _ _ h4
    exact absurd h4 (by simp)
  · have hget : ∀ name ns runnable e,
        Call.GetRunnable name ns runnable (some e) ∉ (Reconcile r fns request w).Calls := by
      intro name ns runnable e h
      have := ((hp.mem_GetRunnable _ _ _ _).mp h).2.2.2
      exact absurd this (by simp)
    have habsent : Call.GetRunnable request.Name request.Namespace none none
        ∉ (Reconcile r fns request w).Calls := by
      intro h
      have := ((hp.mem_GetRunnable _ _ _ _).mp h).2.2.1
      exact absurd this (by simp)
    have hrhs : (∃ runnable stampedObject outputs err,
          Call.Realize runnable stampedObject outputs err ∈ (Reconcile r fns request w).Calls
          ∧ (err = none ∨ ∃ e, err = some e ∧ ReportedOnly e)
          ∧ (stampedObject = none
            ∨ ∃ stamped handler,
              Call.Watch stamped handler none ∈ (Reconcile r fns request w).Calls)
          ∧ ((∀ updated e,
                Call.StatusUpdate updated e ∉ (Reconcile r fns request w).Calls)
            ∨ ∃ updated,
              Call.StatusUpdate updated none ∈ (Reconcile r fns request w).Calls))
        ↔ ((run.err = none ∨ ∃ e, run.err = some e ∧ ReportedOnly e)
          ∧ (run.stampedObject = none
            ∨ ∃ stamped handler, Call.Watch stamped handler none ∈ run.watchCalls)
          ∧ ((∀ updated e, Call.StatusUpdate updated e ∉ run.updateCalls)
            ∨ ∃ updated, Call.StatusUpdate updated none ∈ run.updateCalls)) := by
      simp only [hp.mem_Realize, hp.mem_Watch, hp.mem_StatusUpdate]
      constructor
      · rintro ⟨ru, so, outs, rerr, ⟨rfl, rfl, rfl, rfl⟩, h1, h2, h3⟩
        exact ⟨h1, h2, h3⟩
      · rintro ⟨h1, h2, h3⟩
        exact ⟨_, _, _, _, ⟨rfl, rfl, rfl, rfl⟩, h1, h2, h3⟩
    rw [hrhs]
    constructor
    · intro hnone
      refine ⟨hget, Or.inr ?_⟩
      rcases hp.2.2.update_cases with ⟨huc, hret⟩ | ⟨huc, hret⟩ | ⟨ue, huc, hret⟩
      · rw [hret] at hnone
        rcases hp.2.1.watch_cases with ⟨hso, hwc, herr1⟩ | ⟨s, hso, hwc, herr1⟩ |
          ⟨s, te, hso, hwc, herr1⟩
        · rw [herr1] at hnone
          exact ⟨(returnedError_classify_eq_none_iff fns _).mp hnone, Or.inl hso,
            Or.inl (by simp [huc])⟩
        · rw [herr1] at hnone
          exact ⟨(returnedError_classify_eq_none_iff fns _).mp hnone,
            Or.inr ⟨s, ⟨"Runnable"⟩, by rw [hwc]; exact List.mem_singleton.mpr rfl⟩,
            Or.inl (by simp [huc])⟩
        · rw [herr1, returnedError_NewUnhandledError] at hnone
          exact absurd hnone (by simp)
      · rw [hret] at hnone
        rcases hp.2.1.watch_cases with ⟨hso, hwc, herr1⟩ | ⟨s, hso, hwc, herr1⟩ |
          ⟨s, te, hso, hwc, herr1⟩
        · rw [herr1] at hnone
          exact ⟨(returnedError_classify_eq_none_iff fns _).mp hnone, Or.inl hso,
            Or.inr ⟨_, by rw [huc]; exact List.mem_singleton.mpr rfl⟩⟩
        · rw [herr1] at hnone
          exact ⟨(returnedError_classify_eq_none_iff fns _).mp hnone,
            Or.inr ⟨s, ⟨"Runnable"⟩, by rw [hwc]; exact List.mem_singleton.mpr rfl⟩,
            Or.inr ⟨_, by rw [huc]; exact List.mem_singleton.mpr rfl⟩⟩
        · rw [herr1, returnedError_NewUnhandledError] at hnone
          exact absurd hnone (by simp)
      · rw [hret] at hnone
        exact absurd hnone (by simp)
    · rintro ⟨-, h | ⟨h1, h2, h3⟩⟩
      · exact absurd h habsent
      · have hret : (Reconcile r fns request w).Err = returnedError run.err1 := by
          rcases hp.2.2.update_cases with ⟨-, hret⟩ | ⟨-, hret⟩ | ⟨ue, huc, -⟩
          · exact hret
          · exact hret
          · rw [huc] at h3
            rcases h3 with h3 | ⟨u, h3⟩
            · exact absurd (List.mem_singleton.mpr rfl) (h3 _ _)
            · rw [List.mem_singleton] at h3
              injection h3 with _ h3
              exact absurd h3 (by simp)
        have herr1 : run.err1 = (classify fns run.err).2 := by
          rcases hp.2.1.watch_cases with ⟨-, -, herr1⟩ | ⟨s, -, -, herr1⟩ |
            ⟨s, te, hso, hwc, -⟩
          · exact herr1
          · exact herr1
          · rw [hso, hwc] at h2
            rcases h2 with h2 | ⟨s2, hd, h2⟩
            · exact absurd h2 (by simp)
            · rw [List.mem_singleton] at h2
              injection h2 with _ _ h2
              exact absurd h2 (by simp)
        rw [hret, herr1]
        exact (returnedError_classify_eq_none_iff fns _).mpr h1


/-! ## The observed generation -/

/-- C16, the code at the failing input: the owner is at generation 2 with observed
generation 1.  The first pass writes status, and the object it hands to `StatusUpdate`
still has observed generation 1.  A following pass over the written object, in which
`Finalize` returns the same conditions with `changed = false`, writes status again. -/
theorem Reconcile_ObservedGeneration_not_recorded :
    (Reconcile (scripted (some sampleStaleRunnable) none ⟨none, [], none⟩ none
        ([sampleFns.RunTemplateReadyCondition], true) none)
        sampleFns sampleRequest ()).Calls.filter Call.isStatusUpdate
      = [Call.StatusUpdate
          ((sampleStaleRunnable.setConditions [sampleFns.RunTemplateReadyCondition]).setOutputs
            []) none]
    ∧ ((sampleStaleRunnable.setConditions [sampleFns.RunTemplateReadyCondition]).setOutputs
        []).Generation = 2
    ∧ ((sampleStaleRunnable.setConditions [sampleFns.RunTemplateReadyCondition]).setOutputs
        []).Status.ObservedGeneration = 1
    ∧ (Reconcile (scripted
        (some ((sampleStaleRunnable.setConditions
          [sampleFns.RunTemplateReadyCondition]).setOutputs [])) none ⟨none, [], none⟩ none
        ([sampleFns.RunTemplateReadyCondition], false) none)
        sampleFns sampleRequest ()).Calls.filter Call.isStatusUpdate
      = [Call.StatusUpdate
          ((sampleStaleRunnable.setConditions [sampleFns.RunTemplateReadyCondition]).setOutputs
            []) none] := by
  decide

/-! ## The condition handed to the condition manager -/

/-- C17: in a pass in which the owner exists, `Reconcile` calls `AddPositive` exactly once,
before `Finalize`, whatever the watch and the status write do, and the condition it hands
over is fixed by what the realizer returned: `RunTemplateReadyCondition` for no error,
`RunTemplateMissingCondition` for a `GetRunTemplateError`, `TemplateStampFailureCondition`
for a `ResolveSelectorError` or a `StampError`, `StampedObjectRejectedByAPIServerCondition`
for an `ApplyStampedObjectError`, `FailedToListCreatedObjectsCondition` for a
`ListCreatedObjectsError`, `OutputPathNotSatisfiedCondition` for a `RetrieveOutputError` and
`UnknownErrorCondition` for any other error. -/
theorem Reconcile_AddPositive_once {W : Type} (r : Reconciler W) (fns : ConditionFns)
    (request : Request) (w : W) (runnable : Runnable) (stampedObject : Option Unstructured)
    (outputs : Outputs) (err : Option GoError)
    (hRealize : Call.Realize runnable stampedObject outputs err
      ∈ (Reconcile r fns request w).Calls) :
    ∃ condition,
      (Reconcile r fns request w).Calls.filter Call.isAddPositive
        = [Call.AddPositive condition]
      ∧ (∃ before between after conditions changed,
          (Reconcile r fns request w).Calls
            = before ++ Call.AddPositive condition :: between
              ++ Call.Finalize conditions changed :: after)
      ∧ (err = none → condition = fns.RunTemplateReadyCondition)
      ∧ (∀ d, err = some (GoError.GetRunTemplateError d) →
          condition = fns.RunTemplateMissingCondition (GoError.GetRunTemplateError d))
      ∧ (∀ d, err = some (GoError.ResolveSelectorError d) →
          condition = fns.TemplateStampFailureCondition (GoError.ResolveSelectorError d))
      ∧ (∀ d, err = some (GoError.StampError d) →
          condition = fns.TemplateStampFailureCondition (GoError.StampError d))
      ∧ (∀ d, err = some (GoError.ApplyStampedObjectError d) →
          condition
            = fns.StampedObjectRejectedByAPIServerCondition (GoError.ApplyStampedObjectError d))
      ∧ (∀ d, err = some (GoError.ListCreatedObjectsError d) →
          condition
            = fns.FailedToListCreatedObjectsCondition (GoError.ListCreatedObjectsError d))
      ∧ (∀ d, err = some (GoError.RetrieveOutputError d) →
          condition = fns.OutputPathNotSatisfiedCondition (GoError.RetrieveOutputError d))
      ∧ (∀ e, err = some e →
          (∀ d, e ≠ GoError.GetRunTemplateError d) →
          (∀ d, e ≠ GoError.ResolveSelectorError d) →
          (∀ d, e ≠ GoError.StampError d) →
          (∀ d, e ≠ GoError.ApplyStampedObjectError d) →
          (∀ d, e ≠ GoError.ListCreatedObjectsError d) →
          (∀ d, e ≠ GoError.RetrieveOutputError d) →
          condition = fns.UnknownErrorCondition e) := by
  obtain ⟨run, hp, -, -, -, herr⟩ := Reconcile_of_Realize r fns request w _ _ _ _ hRealize
  subst herr
  refine ⟨(classify fns run.err).1, hp.filter_isAddPositive,
    ⟨[Call.GetRunnable request.Name request.Namespace (some run.runnable) none,
        Call.ConditionManagerBuilder RunnableReady run.runnable.Status.Conditions,
        Call.Realize run.runnable run.stampedObject run.outputs run.err],
      run.watchCalls, run.updateCalls, run.conditions, run.changed, ?_⟩,
    ?_, ?_, ?_, ?_, ?_, ?_, ?_, ?_⟩
  · rw [hp.1]
    simp
  · intro h; rw [h]; rfl
  · intro d h; rw [h]; rfl
  · intro d h; rw [h]; rfl
  · intro d h; rw [h]; rfl
  · intro d h; rw [h]; rfl
  · intro d h; rw [h]; rfl
  · intro d h; rw [h]; rfl
  · intro e h h1 h2 h3 h4 h5 h6
    rw [h]
    cases e with
    | GetRunTemplateError d => exact absurd rfl (h1 d)
    | ResolveSelectorError d => exact absurd rfl (h2 d)
    | StampError d => exact absurd rfl (h3 d)
    | ApplyStampedObjectError d => exact absurd rfl (h4 d)
    | ListCreatedObjectsError d => exact absurd rfl (h5 d)
    | RetrieveOutputError d => exact absurd rfl (h6 d)
    | unhandledError e => rfl
    | wrapError f e => rfl
    | errorString m => rfl

/-- Witness of C17: the realizer succeeds, the watch fails and the status write fails; the
one condition handed over is `RunTemplateReadyCondition`. -/
theorem Reconcile_AddPositive_once_witness :
    Call.Realize sampleRunnable (some sampleStamped) [] none
      ∈ (Reconcile (scripted (some sampleRunnable) none ⟨some sampleStamped, [], none⟩
          (some (GoError.errorString "no kind registered")) ([], true)
          (some (GoError.errorString "conflict"))) sampleFns sampleRequest ()).Calls
    ∧ ∃ condition,
      (Reconcile (scripted (some sampleRunnable) none ⟨some sampleStamped, [], none⟩
          (some (GoError.errorString "no kind registered")) ([], true)
          (some (GoError.errorString "conflict")))
          sampleFns sampleRequest ()).Calls.filter Call.isAddPositive
        = [Call.AddPositive condition]
      ∧ condition = sampleFns.RunTemplateReadyCondition := by
  refine ⟨by decide, ?_⟩
  obtain ⟨condition, h1, -, h2, -⟩ :=
    Reconcile_AddPositive_once (scripted (some sampleRunnable) none
      ⟨some sampleStamped, [], none⟩ (some (GoError.errorString "no kind registered"))
      ([], true) (some (GoError.errorString "conflict"))) sampleFns sampleRequest ()
      sampleRunnable (some sampleStamped) [] none (by decide)
  exact ⟨condition, h1, h2 rfl⟩

/-! ## No retry inside a pass -/

/-- C18: in every pass `Reconcile` calls `Repo.GetRunnable` exactly once; it calls
`Realizer.Realize` and `ConditionManager.Finalize` exactly once each when the owner exists
and not at all otherwise; it calls `DynamicTracker.Watch` at most once and
`Repo.StatusUpdate` at most once; and the `ctrl.Result` it returns is the zero value. -/
theorem Reconcile_no_retry {W : Type} (r : Reconciler W) (fns : ConditionFns)
    (request : Request) (w : W) :
    ((Reconcile r fns request w).Calls.filter Call.isGetRunnable).length = 1
    ∧ ((∃ runnable, Call.GetRunnable request.Name request.Namespace (some runnable) none
          ∈ (Reconcile r fns request w).Calls) →
        ((Reconcile r fns request w).Calls.filter Call.isRealize).length = 1
        ∧ ((Reconcile r fns request w).Calls.filter Call.isFinalize).length = 1)
    ∧ ((¬ ∃ runnable, Call.GetRunnable request.Name request.Namespace (some runnable) none
          ∈ (Reconcile r fns request w).Calls) →
        ((Reconcile r fns request w).Calls.filter Call.isRealize).length = 0
        ∧ ((Reconcile r fns request w).Calls.filter Call.isFinalize).length = 0)
    ∧ ((Reconcile r fns request w).Calls.filter Call.isWatch).length ≤ 1
    ∧ ((Reconcile r fns request w).Calls.filter Call.isStatusUpdate).length ≤ 1
    ∧ (Reconcile r fns request w).Result = Result.zero := by
  rcases Reconcile_shape r fns request w with
    ⟨ro, e, hc, -, -⟩ | ⟨hc, -, -⟩ | ⟨run, hp⟩
  · rw [hc]
    refine ⟨rfl, fun _ => ?_, fun _ => ⟨rfl, rfl⟩, by simp [Call.isWatch],
      by simp [Call.isStatusUpdate], Reconcile_Result r fns request w⟩
    rename_i h
    obtain ⟨ru, h⟩ := h
    rw [List.mem_singleton] at h
    injection h with _ _ _ h4
    exact absurd h4 (by simp)
  · rw [hc]
    refine ⟨rfl, fun _ => ?_, fun _ => ⟨rfl, rfl⟩, by simp [Call.isWatch],
      by simp [Call.isStatusUpdate], Reconcile_Result r fns request w⟩
    rename_i h
    obtain ⟨ru, h⟩ := h
    rw [List.mem_singleton] at h
    injection h with _ _ h3 _
    exact absurd h3 (by simp)
  · rw [hp.filter_isGetRunnable, hp.filter_isRealize, hp.filter_isFinalize,
      hp.filter_isWatch, hp.filter_isStatusUpdate]
    refine ⟨rfl, fun _ => ⟨rfl, rfl⟩, fun h => ?_, ?_, ?_, Reconcile_Result r fns request w⟩
    · exact absurd ⟨run.runnable, (hp.mem_GetRunnable _ _ _ _).mpr ⟨rfl, rfl, rfl, rfl⟩⟩ h
    · rcases hp.2.1.watch_cases with
        ⟨-, hwc, -⟩ | ⟨s, -, hwc, -⟩ | ⟨s, te, -, hwc, -⟩ <;>
        simp [hwc]
    · rcases hp.2.2.update_cases with ⟨huc, -⟩ | ⟨huc, -⟩ | ⟨ue, huc, -⟩ <;> simp [huc]

/-! ## The precedence of failures -/

/-- C19: in a pass that reached the realizer, a failed `Repo.StatusUpdate` makes `Reconcile`
return the wrapped status-update error; when no status write failed, a failed
`DynamicTracker.Watch` makes it return the watch error marked as unhandled, whatever the
realizer returned; when neither failed, it returns nil for no realizer error and for a
realizer error of a reported-only kind, and the realizer's error marked as unhandled for
one of any other kind. -/
theorem Reconcile_error_precedence {W : Type} (r : Reconciler W) (fns : ConditionFns)
    (request : Request) (w : W) (runnable : Runnable) (stampedObject : Option Unstructured)
    (outputs : Outputs) (err : Option GoError)
    (hRealize : Call.Realize runnable stampedObject outputs err
      ∈ (Reconcile r fns request w).Calls) :
    (∀ updated statusUpdateError,
      Call.StatusUpdate updated (some statusUpdateError)
        ∈ (Reconcile r fns request w).Calls →
      (Reconcile r fns request w).Err
        = some (Errorf "update runnable status: %w" statusUpdateError))
    ∧ ((∀ updated statusUpdateError,
        Call.StatusUpdate updated (some statusUpdateError)
          ∉ (Reconcile r fns request w).Calls) →
      (∀ stamped handler trackingError,
        Call.Watch stamped handler (some trackingError)
          ∈ (Reconcile r fns request w).Calls →
        (Reconcile r fns request w).Err = some (NewUnhandledError trackingError))
      ∧ ((∀ stamped handler trackingError,
          Call.Watch stamped handler (some trackingError)
            ∉ (Reconcile r fns request w).Calls) →
        (err = none → (Reconcile r fns request w).Err = none)
        ∧ (∀ e, err = some e → ReportedOnly e → (Reconcile r fns request w).Err = none)
        ∧ (∀ e, err = some e → ¬ ReportedOnly e →
            (Reconcile r fns request w).Err = some (NewUnhandledError e)))) := by
  obtain ⟨run, hp, -, -, -, herr⟩ := Reconcile_of_Realize r fns request w _ _ _ _ hRealize
  subst herr
  simp only [hp.mem_StatusUpdate, hp.mem_Watch]
  refine ⟨?_, ?_⟩
  · intro updated ue hm
    rcases hp.2.2.update_cases with ⟨huc, -⟩ | ⟨huc, -⟩ | ⟨ue2, huc, hret⟩
    · rw [huc] at hm; simp at hm
    · rw [huc, List.mem_singleton] at hm
      injection hm with _ h2
      exact absurd h2 (by simp)
    · rw [huc, List.mem_singleton] at hm
      injection hm with _ h2
      rw [hret, Option.some.inj h2]
  · intro hNoUpdate
    have hret : (Reconcile r fns request w).Err = returnedError run.err1 := by
      rcases hp.2.2.update_cases with ⟨-, hret⟩ | ⟨-, hret⟩ | ⟨ue, huc, -⟩
      · exact hret
      · exact hret
      · exact absurd (by rw [huc]; exact List.mem_singleton.mpr rfl) (hNoUpdate _ ue)
    rw [hret]
    refine ⟨?_, ?_⟩
    · intro stamped handler te hm
      rcases hp.2.1.watch_cases with
        ⟨-, hwc, -⟩ | ⟨s, -, hwc, -⟩ | ⟨s, te2, -, hwc, herr1⟩
      · rw [hwc] at hm; simp at hm
      · rw [hwc, List.mem_singleton] at hm
        injection hm with _ _ h3
        exact absurd h3 (by simp)
      · rw [hwc, List.mem_singleton] at hm
        injection hm with _ _ h3
        rw [herr1, returnedError_NewUnhandledError, Option.some.inj h3]
    · intro hNoWatch
      have herr1 : run.err1 = (classify fns run.err).2 := by
        rcases hp.2.1.watch_cases with
          ⟨-, -, herr1⟩ | ⟨s, -, -, herr1⟩ | ⟨s, te, -, hwc, -⟩
        · exact herr1
        · exact herr1
        · exact absurd (by rw [hwc]; exact List.mem_singleton.mpr rfl)
            (hNoWatch s ⟨"Runnable"⟩ te)
      rw [herr1]
      refine ⟨fun h => ?_, fun e h hro => ?_, fun e h hro => ?_⟩
      · exact (returnedError_classify_eq_none_iff fns _).mpr (Or.inl h)
      · exact (returnedError_classify_eq_none_iff fns _).mpr (Or.inr ⟨e, h, hro⟩)
      · rw [h, classify_err_of_not_ReportedOnly fns e hro, returnedError_NewUnhandledError]

/-- Witness of C19: the realizer reports an unready output, the watch fails and the status
write fails; the pass returns the wrapped status-update error. -/
theorem Reconcile_error_precedence_witness :
    Call.Realize sampleRunnable (some sampleStamped) []
        (some (GoError.RetrieveOutputError "no output yet"))
      ∈ (Reconcile (scripted (some sampleRunnable) none
          ⟨some sampleStamped, [], some (GoError.RetrieveOutputError "no output yet")⟩
          (some (GoError.errorString "no kind registered")) ([], true)
          (some (GoError.errorString "conflict"))) sampleFns sampleRequest ()).Calls
    ∧ (Reconcile (scripted (some sampleRunnable) none
          ⟨some sampleStamped, [], some (GoError.RetrieveOutputError "no output yet")⟩
          (some (GoError.errorString "no kind registered")) ([], true)
          (some (GoError.errorString "conflict"))) sampleFns sampleRequest ()).Err
        = some (Errorf "update runnable status: %w" (GoError.errorString "conflict")) :=
  ⟨by decide,
    (Reconcile_error_precedence _ sampleFns sampleRequest () sampleRunnable
      (some sampleStamped) [] (some (GoError.RetrieveOutputError "no output yet"))
      (by decide)).1 ((sampleRunnable.setConditions []).setOutputs [])
      (GoError.errorString "conflict") (by decide)⟩

/-! ## A failed fetch -/

/-- C20: when `Repo.GetRunnable` returns an error, `Reconcile` returns the non-nil error
built by `fmt.Errorf("get runnable: %w", ...)`, which wraps it, and its only collaborator
call is that `GetRunnable`: it calls none of `ConditionManagerBuilder`, `Realize`, `Watch`,
`Finalize` and `StatusUpdate`.  A pass over an absent owner returns nil instead. -/
theorem Reconcile_fetch_failed {W : Type} (r : Reconciler W) (fns : ConditionFns)
    (request : Request) (w : W) (runnable : Option Runnable) (fetchError : GoError)
    (hFetch : Call.GetRunnable request.Name request.Namespace runnable (some fetchError)
      ∈ (Reconcile r fns request w).Calls) :
    (Reconcile r fns request w).Err = some (Errorf "get runnable: %w" fetchError)
    ∧ (Reconcile r fns request w).Err ≠ none
    ∧ (Reconcile r fns request w).Err.bind Unwrap = some fetchError
    ∧ (Reconcile r fns request w).Calls
        = [Call.GetRunnable request.Name request.Namespace runnable (some fetchError)]
    ∧ (∀ c ∈ (Reconcile r fns request w).Calls,
        c.isConditionManagerBuilder = false ∧ c.isRealize = false ∧ c.isWatch = false
          ∧ c.isFinalize = false ∧ c.isStatusUpdate = false)
    ∧ ∀ (r2 : Reconciler W) (w2 : W),
        Call.GetRunnable request.Name request.Namespace none none
          ∈ (Reconcile r2 fns request w2).Calls →
        (Reconcile r2 fns request w2).Err = none := by
  have habsent : ∀ (r2 : Reconciler W) (w2 : W),
      Call.GetRunnable request.Name request.Namespace none none
        ∈ (Reconcile r2 fns request w2).Calls →
      (Reconcile r2 fns request w2).Err = none := by
    intro r2 w2 h
    rcases Reconcile_shape r2 fns request w2 with
      ⟨ro, e, hc, -, -⟩ | ⟨-, he, -⟩ | ⟨run, hp⟩
    · rw [hc] at h; simp at h
    · exact he
    · have := ((hp.mem_GetRunnable _ _ _ _).mp h).2.2.1
      exact absurd this (by simp)
  rcases Reconcile_shape r fns request w with
    ⟨ro, e, hc, he, -⟩ | ⟨hc, -, -⟩ | ⟨run, hp⟩
  · rw [hc, List.mem_singleton] at hFetch
    injection hFetch with _ _ h3 h4
    have h4 := Option.some.inj h4
    subst h3 h4
    rw [he, hc]
    refine ⟨rfl, by simp, rfl, rfl, ?_, habsent⟩
    intro c hm
    rw [List.mem_singleton] at hm
    subst hm
    exact ⟨rfl, rfl, rfl, rfl, rfl⟩
  · rw [hc] at hFetch; simp at hFetch
  · have := ((hp.mem_GetRunnable _ _ _ _).mp hFetch).2.2.2
    exact absurd this (by simp)

/-- Witness of C20: the fetch fails with a connection error. -/
theorem Reconcile_fetch_failed_witness :
    Call.GetRunnable sampleRequest.Name sampleRequest.Namespace none
        (some (GoError.errorString "connection refused"))
      ∈ (Reconcile (scripted none (some (GoError.errorString "connection refused"))
          ⟨none, [], none⟩ none ([], true) none) sampleFns sampleRequest ()).Calls
    ∧ (Reconcile (scripted none (some (GoError.errorString "connection refused"))
          ⟨none, [], none⟩ none ([], true) none) sampleFns sampleRequest ()).Err
        = some (Errorf "get runnable: %w" (GoError.errorString "connection refused")) :=
  ⟨by decide,
    (Reconcile_fetch_failed _ sampleFns sampleRequest () none
      (GoError.errorString "connection refused") (by decide)).1⟩


/-! ## Further witnesses -/

/-- Witness of C14: the namespaced body of the webhook tests is rejected on create and on
update, and accepted on delete. -/
theorem ValidateDelete_succeeds_witness :
    (sampleTemplate sampleNamespacedBody).ValidateCreate sampleFormat ≠ none
    ∧ (sampleTemplate sampleNamespacedBody).ValidateUpdate sampleFormat none ≠ none
    ∧ ClusterRunTemplate.ValidateDelete (some (sampleTemplate sampleNamespacedBody)) = none :=
  ⟨by decide, by decide,
    ValidateDelete_succeeds.2.2 sampleFormat (sampleTemplate sampleNamespacedBody) none
      (by decide) (by decide)⟩

/-- Witness of C15: a pass in which the realizer reports an unready output, the stamped
object is watched and the status is written returns nil, and its fetch did not fail. -/
theorem Reconcile_Err_eq_none_iff_witness :
    (Reconcile (scripted (some sampleRunnable) none
        ⟨some sampleStamped, [], some (GoError.RetrieveOutputError "no output yet")⟩
        none ([], true) none) sampleFns sampleRequest ()).Err = none
    ∧ ∀ name ns runnable e,
        Call.GetRunnable name ns runnable (some e)
          ∉ (Reconcile (scripted (some sampleRunnable) none
            ⟨some sampleStamped, [], some (GoError.RetrieveOutputError "no output yet")⟩
            none ([], true) none) sampleFns sampleRequest ()).Calls :=
  ⟨by decide,
    ((Reconcile_Err_eq_none_iff (scripted (some sampleRunnable) none
      ⟨some sampleStamped, [], some (GoError.RetrieveOutputError "no output yet")⟩
      none ([], true) none) sampleFns sampleRequest ()).mp (by decide)).1⟩

/-- Witness of C18: a pass in which the owner exists calls `Realize` once and `Finalize`
once. -/
theorem Reconcile_no_retry_witness :
    (∃ runnable, Call.GetRunnable sampleRequest.Name sampleRequest.Namespace (some runnable)
        none
      ∈ (Reconcile (scripted (some sampleRunnable) none ⟨some sampleStamped, [], none⟩
          none ([], true) none) sampleFns sampleRequest ()).Calls)
    ∧ ((Reconcile (scripted (some sampleRunnable) none ⟨some sampleStamped, [], none⟩
          none ([], true) none) sampleFns sampleRequest ()).Calls.filter
            Call.isRealize).length = 1
    ∧ ((Reconcile (scripted (some sampleRunnable) none ⟨some sampleStamped, [], none⟩
          none ([], true) none) sampleFns sampleRequest ()).Calls.filter
            Call.isFinalize).length = 1 :=
  ⟨⟨sampleRunnable, by decide⟩,
    (Reconcile_no_retry (scripted (some sampleRunnable) none ⟨some sampleStamped, [], none⟩
      none ([], true) none) sampleFns sampleRequest ()).2.1 ⟨sampleRunnable, by decide⟩⟩


/-! ## The fields of the owner that a pass changes -/

/-- C21: in a pass in which the owner exists, the owner that `Reconcile` leaves behind is
the owner as fetched except for `Status.Conditions` and `Status.Outputs`: its name,
namespace, `Generation`, spec and `Status.ObservedGeneration` are as fetched; its
`Status.Conditions` is the list that `Finalize` returned; its `Status.Outputs` is the
realizer's outputs when `StatusUpdate` is called and is as fetched otherwise; and the
object handed to `StatusUpdate` is that same owner, with exactly those two fields updated. -/
theorem Reconcile_owner_frame {W : Type} (r : Reconciler W) (fns : ConditionFns)
    (request : Request) (w : W) (runnable : Runnable) (stampedObject : Option Unstructured)
    (outputs : Outputs) (err : Option GoError)
    (hRealize : Call.Realize runnable stampedObject outputs err
      ∈ (Reconcile r fns request w).Calls) :
    ∃ conditions changed,
      Call.Finalize conditions changed ∈ (Reconcile r fns request w).Calls
      ∧ ((∃ updated e, Call.StatusUpdate updated e ∈ (Reconcile r fns request w).Calls) →
          (Reconcile r fns request w).Owner
            = some ⟨runnable.Name, runnable.Namespace, runnable.Generation, runnable.Spec,
                ⟨runnable.Status.ObservedGeneration, conditions, outputs⟩⟩
          ∧ ∀ updated e,
              Call.StatusUpdate updated e ∈ (Reconcile r fns request w).Calls →
              updated = ⟨runnable.Name, runnable.Namespace, runnable.Generation,
                runnable.Spec, ⟨runnable.Status.ObservedGeneration, conditions, outputs⟩⟩)
      ∧ ((¬ ∃ updated e, Call.StatusUpdate updated e ∈ (Reconcile r fns request w).Calls) →
          (Reconcile r fns request w).Owner
            = some ⟨runnable.Name, runnable.Namespace, runnable.Generation, runnable.Spec,
                ⟨runnable.Status.ObservedGeneration, conditions,
                  runnable.Status.Outputs⟩⟩) := by
  obtain ⟨run, hp, hru, -, hout, -⟩ := Reconcile_of_Realize r fns request w _ _ _ _ hRealize
  subst hru hout
  refine ⟨run.conditions, run.changed, (hp.mem_Finalize _ _).mpr ⟨rfl, rfl⟩, ?_, ?_⟩
  · rintro ⟨updated, e, hm⟩
    rcases hp.2.2.calls_cases with ⟨-, ho, e2, huc⟩ | ⟨-, -, huc⟩
    · refine ⟨ho, ?_⟩
      intro updated2 e3 hm2
      have := (hp.mem_StatusUpdate _ _).mp hm2
      rw [huc, List.mem_singleton] at this
      injection this with h1 _
    · have := (hp.mem_StatusUpdate _ _).mp hm
      rw [huc] at this
      simp at this
  · intro hno
    rcases hp.2.2.calls_cases with ⟨-, -, e2, huc⟩ | ⟨-, ho, -⟩
    · exact absurd ⟨_, e2, (hp.mem_StatusUpdate _ _).mpr
        (by rw [huc]; exact List.mem_singleton.mpr rfl)⟩ hno
    · exact ho

/-- Witness of C21: a pass over an up-to-date owner that stores `image = v1`, in which the
condition set changed and the realizer returned `image = v2`. -/
theorem Reconcile_owner_frame_witness :
    Call.Realize sampleReadyRunnable (some sampleStamped) [("image", "v2")] none
      ∈ (Reconcile (scripted (some sampleReadyRunnable) none
          ⟨some sampleStamped, [("image", "v2")], none⟩ none
          ([sampleFns.RunTemplateReadyCondition], true) none)
          sampleFns sampleRequest ()).Calls
    ∧ (Reconcile (scripted (some sampleReadyRunnable) none
          ⟨some sampleStamped, [("image", "v2")], none⟩ none
          ([sampleFns.RunTemplateReadyCondition], true) none)
          sampleFns sampleRequest ()).Owner
        = some ⟨"my-runnable", "my-namespace", 1, ⟨"my-run-template", []⟩,
            ⟨1, [sampleFns.RunTemplateReadyCondition], [("image", "v2")]⟩⟩ := by
  refine ⟨by decide, ?_⟩
  obtain ⟨conditions, changed, hfin, hwrite, -⟩ :=
    Reconcile_owner_frame (scripted (some sampleReadyRunnable) none
      ⟨some sampleStamped, [("image", "v2")], none⟩ none
      ([sampleFns.RunTemplateReadyCondition], true) none) sampleFns sampleRequest ()
      sampleReadyRunnable (some sampleStamped) [("image", "v2")] none (by decide)
  have hcs : conditions = [sampleFns.RunTemplateReadyCondition] := by
    revert hfin
    simp [Reconcile, scripted, classify, Runnable.setConditions, Runnable.setOutputs,
      sampleReadyRunnable]
    intro h _
    exact h
  rw [(hwrite ⟨(sampleReadyRunnable.setConditions
      [sampleFns.RunTemplateReadyCondition]).setOutputs [("image", "v2")], none,
      by decide⟩).1, hcs]
  rfl

/-! ## Generated deep copies: structural equality -/

/-- Copying a slice into a fresh slice of the same length gives the slice. -/
theorem copySlice_makeSlice {α : Type} [Inhabited α] (src : List α) :
    copySlice (makeSlice α src.length) src = src := by
  simp [copySlice, makeSlice]

/-- After `k` rounds the copy loop has written the first `k` elements and has left the
rest of `out` alone. -/
theorem deepCopyEach_rounds {α : Type} (f : α → α) (l : List α) :
    ∀ (k : Nat) (out : List α), k ≤ l.length → out.length = l.length →
      (List.range k).foldl
        (fun out i =>
          match l[i]? with
          | some x => out.set i (f x)
          | none => out)
        out
      = (l.take k).map f ++ out.drop k := by
  intro k
  induction k with
  | zero => intro out _ _; simp
  | succ k ih =>
    intro out hk hlen
    rw [List.range_succ, List.foldl_append, ih out (Nat.le_of_succ_le hk) hlen]
    have hkl : k < l.length := hk
    have hko : k < out.length := by omega
    simp only [List.foldl_cons, List.foldl_nil]
    rw [List.getElem?_eq_getElem hkl]
    simp only []
    rw [List.set_append_right _ _ (by simp only [List.length_map, List.length_take]; omega)]
    have hA : (List.map f (List.take k l)).length = k := by
      simp only [List.length_map, List.length_take]
      omega
    rw [hA, Nat.sub_self, List.drop_eq_getElem_cons hko, List.set_cons_zero,
      List.take_succ, List.getElem?_eq_getElem hkl]
    simp only [Option.toList_some, List.map_append, List.map_cons, List.map_nil,
      List.append_assoc, List.singleton_append]

/-- The copy loop over a fresh slice of the same length gives the deep copy of every
element, in order. -/
theorem deepCopyEach_makeSlice {α : Type} [Inhabited α] (f : α → α) (l : List α) :
    deepCopyEach f l (makeSlice α l.length) = l.map f := by
  unfold deepCopyEach
  rw [deepCopyEach_rounds f l l.length (makeSlice α l.length) (Nat.le_refl _)
    (by simp [makeSlice])]
  simp [makeSlice]

/-- Inserting entries with other keys does not change what a key maps to. -/
theorem lookup_foldl_insert_of_not_mem (k : String) :
    ∀ (es : List (Σ _ : String, String)) (acc : StringMap), k ∉ es.keys →
      AList.lookup k (es.foldl (fun out entry => out.insert entry.1 entry.2) acc)
        = AList.lookup k acc := by
  intro es
  induction es with
  | nil => intro acc _; rfl
  | cons e es ih =>
    intro acc hk
    rw [List.keys_cons, List.mem_cons, not_or] at hk
    rw [List.foldl_cons, ih _ hk.2, AList.lookup_insert_ne hk.1]

/-- Inserting entries with distinct keys maps each key to the value of its entry. -/
theorem lookup_foldl_insert_of_mem (k v : String) :
    ∀ (es : List (Σ _ : String, String)) (acc : StringMap), es.NodupKeys →
      (⟨k, v⟩ : Σ _ : String, String) ∈ es →
      AList.lookup k (es.foldl (fun out entry => out.insert entry.1 entry.2) acc)
        = some v := by
  intro es
  induction es with
  | nil => intro acc _ h; simp at h
  | cons e es ih =>
    intro acc hnd hm
    rw [List.nodupKeys_cons] at hnd
    rw [List.foldl_cons]
    rcases List.mem_cons.mp hm with h | h
    · subst h
      rw [lookup_foldl_insert_of_not_mem k es _ hnd.1, AList.lookup_insert]
    · exact ih _ hnd.2 h

/-- The copy of a map has the same keys with the same values. -/
theorem lookup_copyMap (m : StringMap) (k : String) :
    AList.lookup k (copyMap m) = AList.lookup k m := by
  unfold copyMap
  cases h : AList.lookup k m with
  | none =>
    rw [AList.lookup_eq_none, AList.mem_keys] at h
    rw [lookup_foldl_insert_of_not_mem k m.entries ∅ h, AList.lookup_empty]
  | some v =>
    have hm : (⟨k, v⟩ : Σ _ : String, String) ∈ m.entries :=
      AList.mem_lookup_iff.mp h
    exact lookup_foldl_insert_of_mem k v m.entries ∅ m.nodupKeys hm

/-- The copy written by `WorkloadGitRef.DeepCopyInto` equals the receiver. -/
theorem WorkloadGitRef_DeepCopyInto_eq (x : WorkloadGitRef) : x.DeepCopyInto = x := by
  obtain ⟨branch, tag, commit⟩ := x
  cases branch <;> cases tag <;> cases commit <;> rfl

/-- The copy written by `WorkloadGit.DeepCopyInto` equals the receiver. -/
theorem WorkloadGit_DeepCopyInto_eq (x : WorkloadGit) : x.DeepCopyInto = x := by
  obtain ⟨url, ref⟩ := x
  cases url <;> cases ref <;>
    simp [WorkloadGit.DeepCopyInto, WorkloadGitRef_DeepCopyInto_eq]

/-- The copy written by `WorkloadSource.DeepCopyInto` equals the receiver. -/
theorem WorkloadSource_DeepCopyInto_eq (x : WorkloadSource) : x.DeepCopyInto = x := by
  obtain ⟨git, image, subpath⟩ := x
  cases git <;> cases image <;> cases subpath <;>
    simp [WorkloadSource.DeepCopyInto, WorkloadGit_DeepCopyInto_eq]

/-- The copy written by `SupplyChainParam.DeepCopyInto` equals the receiver when the
external copy of the JSON value returns an equal value. -/
theorem SupplyChainParam_DeepCopyInto_eq (copyJSON : RawJSON → RawJSON)
    (hJSON : ∀ value, copyJSON value = value) (x : SupplyChainParam) :
    x.DeepCopyInto copyJSON = x := by
  obtain ⟨name, value⟩ := x
  simp [SupplyChainParam.DeepCopyInto, hJSON]

/-- The copy written by `SupplyChainComponent.DeepCopyInto` equals the receiver when the
external copy of a JSON value returns an equal value. -/
theorem SupplyChainComponent_DeepCopyInto_eq (copyJSON : RawJSON → RawJSON)
    (hJSON : ∀ value, copyJSON value = value) (x : SupplyChainComponent) :
    x.DeepCopyInto copyJSON = x := by
  have hparams : ∀ params : List SupplyChainParam,
      params.map (SupplyChainParam.DeepCopyInto copyJSON) = params := by
    intro params
    rw [List.map_congr_left (fun p _ => SupplyChainParam_DeepCopyInto_eq copyJSON hJSON p),
      List.map_id']
  obtain ⟨name, templateRef, params, sources, images, configs⟩ := x
  cases params <;> cases sources <;> cases images <;> cases configs <;>
    simp [SupplyChainComponent.DeepCopyInto, deepCopyEach_makeSlice, copySlice_makeSlice,
      hparams]

/-- C22: for every non-nil value `x` of `WorkloadGitRef`, `WorkloadGit`, `WorkloadSource`
and `SupplyChainComponent`, `DeepCopy` returns a value equal to `x` field by field (an
optional field is absent exactly when it is absent in `x`, a list is nil exactly when it
is nil in `x`, and otherwise they hold equal values, in the same order); for every
non-nil `SupplyChainSpec` the copy has an equal list of components, a selector that is nil
exactly when that of `x` is, and otherwise one that maps every key to what the selector of
`x` maps it to; and `DeepCopy` of a nil receiver is nil.  The external deep copy of an
embedded JSON value is assumed to return an equal value. -/
theorem DeepCopy_structurally_equal (copyJSON : RawJSON → RawJSON)
    (hJSON : ∀ value, copyJSON value = value) :
    (∀ x : WorkloadGitRef, WorkloadGitRef.DeepCopy (some x) = some x)
    ∧ (∀ x : WorkloadGit, WorkloadGit.DeepCopy (some x) = some x)
    ∧ (∀ x : WorkloadSource, WorkloadSource.DeepCopy (some x) = some x)
    ∧ (∀ x : SupplyChainComponent,
        SupplyChainComponent.DeepCopy copyJSON (some x) = some x)
    ∧ (∀ x : SupplyChainSpec,
        ∃ y, SupplyChainSpec.DeepCopy copyJSON (some x) = some y
          ∧ y.Components = x.Components
          ∧ (y.Selector = none ↔ x.Selector = none)
          ∧ ∀ selector, x.Selector = some selector →
              ∃ copied, y.Selector = some copied
                ∧ ∀ key, AList.lookup key copied = AList.lookup key selector)
    ∧ WorkloadGitRef.DeepCopy none = none
    ∧ WorkloadGit.DeepCopy none = none
    ∧ WorkloadSource.DeepCopy none = none
    ∧ SupplyChainComponent.DeepCopy copyJSON none = none
    ∧ SupplyChainSpec.DeepCopy copyJSON none = none := by
  have hcomponents : ∀ components : List SupplyChainComponent,
      components.map (SupplyChainComponent.DeepCopyInto copyJSON) = components := by
    intro components
    rw [List.map_congr_left
      (fun c _ => SupplyChainComponent_DeepCopyInto_eq copyJSON hJSON c), List.map_id']
  refine ⟨fun x => ?_, fun x => ?_, fun x => ?_, fun x => ?_, fun x => ?_,
    rfl, rfl, rfl, rfl, rfl⟩
  · exact congrArg some (WorkloadGitRef_DeepCopyInto_eq x)
  · exact congrArg some (WorkloadGit_DeepCopyInto_eq x)
  · exact congrArg some (WorkloadSource_DeepCopyInto_eq x)
  · exact congrArg some (SupplyChainComponent_DeepCopyInto_eq copyJSON hJSON x)
  · refine ⟨x.DeepCopyInto copyJSON, rfl, ?_, ?_, ?_⟩
    · obtain ⟨components, selector⟩ := x
      cases components <;> cases selector <;>
        simp [SupplyChainSpec.DeepCopyInto, deepCopyEach_makeSlice, hcomponents]
    · obtain ⟨components, selector⟩ := x
      cases components <;> cases selector <;> simp [SupplyChainSpec.DeepCopyInto]
    · intro selector hsel
      obtain ⟨components, selector2⟩ := x
      simp only at hsel
      subst hsel
      refine ⟨copyMap selector, ?_, lookup_copyMap selector⟩
      cases components <;> simp [SupplyChainSpec.DeepCopyInto]

/-- Witness of C22: with an external copy that returns its argument, the copies of the
sample source and of the sample stage equal them, and the copy of the sample supply chain
has the same stages and a selector with the same labels. -/
theorem DeepCopy_structurally_equal_witness :
    (∀ value : RawJSON, (fun v => v) value = value)
    ∧ WorkloadSource.DeepCopy (some sampleSource) = some sampleSource
    ∧ SupplyChainComponent.DeepCopy (fun v => v) (some sampleComponent) = some sampleComponent
    ∧ ∃ y, SupplyChainSpec.DeepCopy (fun v => v) (some sampleSupplyChainSpec) = some y
        ∧ y.Components = sampleSupplyChainSpec.Components
        ∧ (y.Selector = none ↔ sampleSupplyChainSpec.Selector = none)
        ∧ ∀ selector, sampleSupplyChainSpec.Selector = some selector →
            ∃ copied, y.Selector = some copied
              ∧ ∀ key, AList.lookup key copied = AList.lookup key selector :=
  ⟨fun _ => rfl,
    (DeepCopy_structurally_equal (fun v => v) (fun _ => rfl)).2.2.1 sampleSource,
    (DeepCopy_structurally_equal (fun v => v) (fun _ => rfl)).2.2.2.1 sampleComponent,
    (DeepCopy_structurally_equal (fun v => v) (fun _ => rfl)).2.2.2.2.1
      sampleSupplyChainSpec⟩

end Cartographer
